import Mathlib

/-!
# Verification of the lightbase platform-backend identity core

Shallow embedding of the identity / multi-tenancy / session core of the
repository, together with proofs that settle the frozen claims C1..C10.

Timestamps are modelled as `Int` milliseconds since epoch.  JavaScript
`undefined` / `null` is modelled as `Option.none`.  Thrown `AppError`s are
modelled through `Except AuthError`.  External cryptography (bcrypt,
speakeasy TOTP, uuid generation) is modelled by explicitly passed values and
uninterpreted functions, since those live outside the repository.
-/

set_option maxHeartbeats 1000000

namespace Backend

/-- `AppError` as thrown by the backend: either a validation error (HTTP 400)
or a server error (HTTP 500). Unauthorized session errors are added for the
session store model. -/
inductive AuthError where
  | validation (key : String)
  | server (message : String)
  | unauthorized (key : String)
  | custom (key : String) (statusCode : Nat)
deriving Repr, DecidableEq

/-- The HTTP status attached to each error kind
(`AppError.validationError` = 400, `AppError.serverError` = 500,
session errors normalized to 401, `new AppError(key, status, ...)` carries an
explicit status). -/
def AuthError.status : AuthError → Nat
  | .validation _ => 400
  | .server _ => 500
  | .unauthorized _ => 401
  | .custom _ s => s

/-- First-match association-list lookup; models a plain JS object access
`obj[key]` for objects whose keys are unique. -/
def lookupAssoc {α : Type} (l : List (String × α)) (key : String) : Option α :=
  (l.find? (fun p => p.1 = key)).map (·.2)

/-- One UTC day in milliseconds; `expiresAt.setUTCDate(expiresAt.getUTCDate() + 1)`
adds exactly this amount since UTC has no daylight-saving shifts. -/
def oneUtcDayMs : Int := 86400000

/-! ## Feature flags (`src/feature-flag/events.js`, `src/feature-flag/cache.js`) -/

/-- A row of the `featureFlag` table: unique `name`, a global boolean value and
a per-tenant override map keyed by tenant name. -/
structure FeatureFlag where
  name : String
  globalValue : Bool
  tenantValues : List (String × Bool)
deriving Repr, DecidableEq

/-- `flag?.tenantValues?.[tenant?.name]`: the per-tenant override, `none` when
the tenant is absent or has no entry. -/
def FeatureFlag.tenantValue (flag : FeatureFlag) (tenantName : Option String) : Option Bool :=
  match tenantName with
  | none => none
  | some n => lookupAssoc flag.tenantValues n

/-- `featureFlagCurrent` (feature-flag/events.js): read all flags, keep only
names declared in `availableFlags`, resolve each to the tenant override when
present and the global value otherwise; declared flags missing from storage
are appended with value `false` (`result[flag] ??= false`). The JS result
object is modelled as an association list built in the same order. -/
def featureFlagCurrent (availableFlags : List String) (flags : List FeatureFlag)
    (tenantName : Option String) : List (String × Bool) :=
  let fromDb := (flags.filter (fun f => f.name ∈ availableFlags)).map
    (fun f => (f.name, (f.tenantValue tenantName).getD f.globalValue))
  let missing := (availableFlags.filter
    (fun n => ¬ (fromDb.map Prod.fst).contains n)).map (fun n => (n, false))
  fromDb ++ missing

/-- `featureFlagFetcher` (feature-flag/cache.js): find the flag row by name;
an unknown identifier throws
`AppError.serverError("Received a feature flag identifier that doesn't exist.")`. -/
def featureFlagFetcher (flags : List FeatureFlag) (key : String) :
    Except AuthError FeatureFlag :=
  match flags.find? (fun f => f.name = key) with
  | some f => .ok f
  | none => .error (.server "Received a feature flag identifier that doesn't exist.")

/-- `featureFlagGetDynamic` (feature-flag/events.js): fetch one flag through the
cache and resolve with the same per-tenant precedence as `featureFlagCurrent`. -/
def featureFlagGetDynamic (flags : List FeatureFlag) (tenantName : Option String)
    (identifier : String) : Except AuthError Bool := do
  let flag ← featureFlagFetcher flags identifier
  pure ((flag.tenantValue tenantName).getD flag.globalValue)

/-- With unique flag names, searching the table for a stored flag's name finds
exactly that flag. -/
theorem find_flag_by_own_name (flags : List FeatureFlag) (f : FeatureFlag)
    (hnodup : (flags.map FeatureFlag.name).Nodup) (hmem : f ∈ flags) :
    flags.find? (fun g => g.name = f.name) = some f := by
  induction flags with
  | nil => cases hmem
  | cons a l ih =>
    rw [List.map_cons, List.nodup_cons] at hnodup
    rcases List.mem_cons.mp hmem with rfl | hl
    · rw [List.find?_cons_of_pos _ (by simp)]
    · have hne : a.name ≠ f.name := by
        intro h
        exact hnodup.1 (h ▸ List.mem_map_of_mem FeatureFlag.name hl)
      rw [List.find?_cons_of_neg _ (by simpa using hne)]
      exact ih hnodup.2 hl

/-- Searching the filtered-and-mapped storage rows for a stored, declared
flag's name yields that flag's resolved entry. -/
theorem find_fromDb_entry (availableFlags : List String) (flags : List FeatureFlag)
    (tenantName : Option String) (f : FeatureFlag)
    (hnodup : (flags.map FeatureFlag.name).Nodup) (hmem : f ∈ flags)
    (hdecl : f.name ∈ availableFlags) :
    ((flags.filter (fun g => g.name ∈ availableFlags)).map
        (fun g => (g.name, (g.tenantValue tenantName).getD g.globalValue))).find?
        (fun p => p.1 = f.name)
      = some (f.name, (f.tenantValue tenantName).getD f.globalValue) := by
  induction flags with
  | nil => cases hmem
  | cons a l ih =>
    rw [List.map_cons, List.nodup_cons] at hnodup
    rcases List.mem_cons.mp hmem with rfl | hl
    · rw [List.filter_cons_of_pos (by simpa using hdecl), List.map_cons,
        List.find?_cons_of_pos _ (by simp)]
    · have hne : a.name ≠ f.name := by
        intro h
        exact hnodup.1 (h ▸ List.mem_map_of_mem FeatureFlag.name hl)
      by_cases hpa : a.name ∈ availableFlags
      · rw [List.filter_cons_of_pos (by simpa using hpa), List.map_cons,
          List.find?_cons_of_neg _ (by simpa using hne)]
        exact ih hnodup.2 hl
      · rw [List.filter_cons_of_neg (by simpa using hpa)]
        exact ih hnodup.2 hl

/-- Claim C3 — per-tenant feature-flag resolution.
(1) A stored, declared flag resolves to its tenant override when present and
its global value otherwise; (2) a declared flag absent from storage resolves
to `false`; (3) a stored flag that is not declared is omitted from the
current set; (4) `getDynamic` follows the same per-tenant precedence for
stored flags; (5) `getDynamic` on an unknown identifier is a server error. -/
theorem c3_feature_flag_resolution (availableFlags : List String)
    (flags : List FeatureFlag) (tenantName : Option String)
    (hnodup : (flags.map FeatureFlag.name).Nodup) :
    (∀ f ∈ flags, f.name ∈ availableFlags →
      lookupAssoc (featureFlagCurrent availableFlags flags tenantName) f.name
        = some ((f.tenantValue tenantName).getD f.globalValue)) ∧
    (∀ n ∈ availableFlags, (∀ f ∈ flags, f.name ≠ n) →
      lookupAssoc (featureFlagCurrent availableFlags flags tenantName) n = some false) ∧
    (∀ n, n ∉ availableFlags →
      lookupAssoc (featureFlagCurrent availableFlags flags tenantName) n = none) ∧
    (∀ f ∈ flags, featureFlagGetDynamic flags tenantName f.name
      = .ok ((f.tenantValue tenantName).getD f.globalValue)) ∧
    (∀ n, (∀ f ∈ flags, f.name ≠ n) →
      featureFlagGetDynamic flags tenantName n
        = .error (.server "Received a feature flag identifier that doesn't exist.")) := by
  refine ⟨?_, ?_, ?_, ?_, ?_⟩
  · intro f hmem hdecl
    unfold featureFlagCurrent lookupAssoc
    rw [List.find?_append, find_fromDb_entry availableFlags flags tenantName f hnodup hmem hdecl]
    rfl
  · intro n hdecl habsent
    unfold featureFlagCurrent lookupAssoc
    have hdb : ((flags.filter (fun g => g.name ∈ availableFlags)).map
        (fun g => (g.name, (g.tenantValue tenantName).getD g.globalValue))).find?
        (fun p => p.1 = n) = none := by
      rw [List.find?_eq_none]
      intro p hp
      rcases List.mem_map.mp hp with ⟨g, hg, rfl⟩
      simpa using habsent g (List.mem_of_mem_filter hg)
    rw [List.find?_append, hdb, Option.none_or]
    have hkeys : ¬ (((flags.filter (fun g => g.name ∈ availableFlags)).map
        (fun g => (g.name, (g.tenantValue tenantName).getD g.globalValue))).map
          Prod.fst).contains n := by
      intro hcon
      rw [List.contains_eq_any_beq, List.any_eq_true] at hcon
      rcases hcon with ⟨x, hx, hbeq⟩
      rw [beq_iff_eq] at hbeq
      rcases List.mem_map.mp hx with ⟨p, hp, rfl⟩
      rcases List.mem_map.mp hp with ⟨g, hg, rfl⟩
      exact habsent g (List.mem_of_mem_filter hg) hbeq.symm
    have hn : (n, false) ∈ (availableFlags.filter
        (fun m => ¬ (((flags.filter (fun g => g.name ∈ availableFlags)).map
          (fun g => (g.name, (g.tenantValue tenantName).getD g.globalValue))).map
            Prod.fst).contains m)).map (fun m => (m, false)) := by
      exact List.mem_map_of_mem _ (List.mem_filter.mpr ⟨hdecl, by simpa using hkeys⟩)
    cases hfind : (((availableFlags.filter
        (fun m => ¬ (((flags.filter (fun g => g.name ∈ availableFlags)).map
          (fun g => (g.name, (g.tenantValue tenantName).getD g.globalValue))).map
            Prod.fst).contains m)).map (fun m => (m, false))).find?
        (fun p => p.1 = n)) with
    | none =>
      rw [List.find?_eq_none] at hfind
      exact absurd (by simp : decide ((n, false).1 = n) = true) (by simpa using hfind _ hn)
    | some p =>
      have hp := List.find?_some hfind
      have hpmem := List.mem_of_find?_eq_some hfind
      rcases List.mem_map.mp hpmem with ⟨m, _, rfl⟩
      simp only [decide_eq_true_eq] at hp
      simp [hfind, hp]
  · intro n hnotdecl
    unfold featureFlagCurrent lookupAssoc
    have hdb : ((flags.filter (fun g => g.name ∈ availableFlags)).map
        (fun g => (g.name, (g.tenantValue tenantName).getD g.globalValue))).find?
        (fun p => p.1 = n) = none := by
      rw [List.find?_eq_none]
      intro p hp
      rcases List.mem_map.mp hp with ⟨g, hg, rfl⟩
      have hga : g.name ∈ availableFlags := by
        have := List.of_mem_filter hg
        simpa using this
      intro hgn
      simp only [decide_eq_true_eq] at hgn
      exact hnotdecl (hgn ▸ hga)
    have hmiss : ((availableFlags.filter
        (fun m => ¬ (((flags.filter (fun g => g.name ∈ availableFlags)).map
          (fun g => (g.name, (g.tenantValue tenantName).getD g.globalValue))).map
            Prod.fst).contains m)).map (fun m => (m, false))).find?
        (fun p => p.1 = n) = none := by
      rw [List.find?_eq_none]
      intro p hp
      rcases List.mem_map.mp hp with ⟨m, hm, rfl⟩
      intro hmn
      simp only [decide_eq_true_eq] at hmn
      exact hnotdecl (hmn ▸ List.mem_of_mem_filter hm)
    rw [List.find?_append, hdb, Option.none_or, hmiss]
    rfl
  · intro f hmem
    unfold featureFlagGetDynamic featureFlagFetcher
    rw [find_flag_by_own_name flags f hnodup hmem]
    rfl
  · intro n habsent
    unfold featureFlagGetDynamic featureFlagFetcher
    have : flags.find? (fun g => g.name = n) = none := by
      rw [List.find?_eq_none]
      intro g hg
      simpa using habsent g hg
    rw [this]
    rfl

/-- Concrete instantiation of C3: two declared flags, one stored with a tenant
override, one not stored, plus one stored-but-undeclared flag. -/
theorem c3_feature_flag_resolution_witness :
    lookupAssoc (featureFlagCurrent ["fa", "fb"]
        [⟨"fa", true, [("acme", false)]⟩, ⟨"fc", true, []⟩] (some "acme")) "fa"
      = some false ∧
    lookupAssoc (featureFlagCurrent ["fa", "fb"]
        [⟨"fa", true, [("acme", false)]⟩, ⟨"fc", true, []⟩] (some "acme")) "fb"
      = some false ∧
    lookupAssoc (featureFlagCurrent ["fa", "fb"]
        [⟨"fa", true, [("acme", false)]⟩, ⟨"fc", true, []⟩] (some "acme")) "fc"
      = none ∧
    featureFlagGetDynamic [⟨"fa", true, [("acme", false)]⟩, ⟨"fc", true, []⟩]
        (some "acme") "fa" = .ok false ∧
    featureFlagGetDynamic [⟨"fa", true, [("acme", false)]⟩, ⟨"fc", true, []⟩]
        (some "acme") "fz"
      = .error (.server "Received a feature flag identifier that doesn't exist.") := by
  have h := c3_feature_flag_resolution ["fa", "fb"]
    [⟨"fa", true, [("acme", false)]⟩, ⟨"fc", true, []⟩] (some "acme") (by decide)
  refine ⟨?_, ?_, ?_, ?_, ?_⟩
  · exact (h.1 ⟨"fa", true, [("acme", false)]⟩ (by decide) (by decide)).trans (by decide)
  · exact h.2.1 "fb" (by decide) (by decide)
  · exact h.2.2.1 "fc" (by decide)
  · exact (h.2.2.2.1 ⟨"fa", true, [("acme", false)]⟩ (by decide)).trans rfl
  · exact h.2.2.2.2 "fz" (by decide)

/-! ## Tenant resolution (`src/multitenant/events.js`) -/

/-- One `urlConfig` entry of a loaded tenant: maps a public URL to its api URL. -/
structure UrlSpec where
  apiUrl : String
deriving Repr, DecidableEq

/-- A tenant from the validated static configuration, after entries for other
deployment environments have been dropped. -/
structure LoadedTenant where
  name : String
  urlConfig : List (String × UrlSpec)
deriving Repr, DecidableEq

/-- The precomputed indexes of `multitenantLoadConfig`. -/
structure MultitenantConfig where
  tenantsByPublicUrl : List (String × LoadedTenant)
  tenantsByApiUrl : List (String × LoadedTenant)
  hasUniqueApiUrls : Bool
deriving Repr, DecidableEq

/-- A row of the `tenant` table. -/
structure DbTenant where
  id : Nat
  name : String
deriving Repr, DecidableEq

/-- The request headers and protocol that `multitenantLoadByContext` reads. -/
structure RequestCtx where
  originHeaderValue : Option String
  hostHeaderValue : Option String
  tenantOriginHeaderValue : Option String
  protocol : String
deriving Repr, DecidableEq

/-- `BackendResolvedTenant`. -/
structure ResolvedTenant where
  tenant : DbTenant
  urlConfig : List (String × UrlSpec)
  publicUrl : String
  apiUrl : String
deriving Repr, DecidableEq

/-- JS `String.prototype.trim`: strip whitespace from both ends. Implemented
over the character list so that it is kernel-executable. -/
def jsTrim (s : String) : String :=
  ⟨((s.data.dropWhile Char.isWhitespace).reverse.dropWhile Char.isWhitespace).reverse⟩

/-- `!v || v.trim().length === 0` turns a missing or blank header into
`undefined`. -/
def normalizeHeader (v : Option String) : Option String :=
  match v with
  | none => none
  | some s => if (jsTrim s).length = 0 then none else some s

/-- JS template-literal interpolation of a possibly-undefined value:
`undefined` renders as the string `"undefined"`. -/
def jsTemplate (v : Option String) : String :=
  match v with
  | none => "undefined"
  | some s => s

/-- `originWithProtocol?.split("://")?.[1]`, computed from the raw header. -/
def RequestCtx.originWithoutProtocol (ctx : RequestCtx) : Option String :=
  ctx.originHeaderValue.bind (fun s => (s.splitOn "://").get? 1)

/-- The normalized `origin` header. -/
def RequestCtx.originWithProtocol (ctx : RequestCtx) : Option String :=
  normalizeHeader ctx.originHeaderValue

/-- The normalized `x-lpc-tenant-origin` header. -/
def RequestCtx.tenantOriginWithoutProtocol (ctx : RequestCtx) : Option String :=
  normalizeHeader ctx.tenantOriginHeaderValue

/-- `https://${tenantOriginWithoutProtocol}`, which is reset to `undefined`
together with the bare value when the header is missing or blank. -/
def RequestCtx.tenantOriginWithProtocol (ctx : RequestCtx) : Option String :=
  (normalizeHeader ctx.tenantOriginHeaderValue).map
    (fun _ => "https://" ++ jsTemplate ctx.tenantOriginHeaderValue)

/-- Scan a urlConfig for the first public URL whose `apiUrl` equals the
request host (the fallback publicUrl loop of `multitenantLoadByContext`). -/
def findPublicUrlByApiUrl (urlConfig : List (String × UrlSpec)) (host : String)
    (protocol : String) : Option String :=
  (urlConfig.find? (fun p => p.2.apiUrl = host)).map
    (fun p => protocol ++ "://" ++ p.1)

/-- `multitenantLoadByContext` (multitenant/events.js): resolve the tenant,
publicUrl and apiUrl for a request from the `host`, `origin` and
`x-lpc-tenant-origin` headers and the precomputed config indexes.
`allowedDevelopmentRequests` is
`!isProduction() || LPC_BACKEND_ENVIRONMENT ∈ {development, acceptance}`;
`dbTenants` is the `tenant` table queried at the end. -/
def multitenantLoadByContext (cfg : MultitenantConfig)
    (allowedDevelopmentRequests : Bool) (dbTenants : List DbTenant)
    (ctx : RequestCtx) : Except AuthError ResolvedTenant :=
  let originWithProtocol := ctx.originWithProtocol
  let originWithoutProtocol := ctx.originWithoutProtocol
  let hostWithoutProtocol := normalizeHeader ctx.hostHeaderValue
  let hostWithProtocol := ctx.protocol ++ "://" ++ jsTemplate ctx.hostHeaderValue
  let tenantOriginWithoutProtocol := ctx.tenantOriginWithoutProtocol
  let tenantOriginWithProtocol := ctx.tenantOriginWithProtocol
  match hostWithoutProtocol with
  | none => .error (.validation "multitenant.require.missingHostHeader")
  | some host =>
    let branches : Option LoadedTenant × Option String × Option String :=
      if cfg.hasUniqueApiUrls ∧ ¬ allowedDevelopmentRequests then
        let configTenant := lookupAssoc cfg.tenantsByApiUrl host
        let publicUrl := (configTenant.map (·.urlConfig)).bind
          (fun uc => findPublicUrlByApiUrl uc host ctx.protocol)
        (configTenant, publicUrl, some hostWithProtocol)
      else if ¬ allowedDevelopmentRequests then
        let key := originWithoutProtocol.orElse (fun _ => tenantOriginWithoutProtocol)
        let configTenant := key.bind (lookupAssoc cfg.tenantsByPublicUrl)
        let publicUrl := originWithProtocol.orElse (fun _ => tenantOriginWithProtocol)
        let apiUrl := ctx.protocol ++ "://" ++ jsTemplate
          ((key.bind (fun k =>
            (configTenant.map (·.urlConfig)).bind
              (fun uc => lookupAssoc uc k))).map (·.apiUrl))
        (configTenant, publicUrl, some apiUrl)
      else
        match tenantOriginWithoutProtocol with
        | some tenantOrigin =>
          let configTenant := lookupAssoc cfg.tenantsByPublicUrl tenantOrigin
          let publicUrl := originWithProtocol.orElse (fun _ => tenantOriginWithProtocol)
          (configTenant, publicUrl, some hostWithProtocol)
        | none =>
          if cfg.hasUniqueApiUrls then
            let configTenant := lookupAssoc cfg.tenantsByApiUrl host
            let publicUrl :=
              match originWithProtocol.orElse (fun _ => tenantOriginWithProtocol) with
              | some u => some u
              | none => (configTenant.map (·.urlConfig)).bind
                  (fun uc => findPublicUrlByApiUrl uc host ctx.protocol)
            (configTenant, publicUrl, some hostWithProtocol)
          else
            let configTenant := originWithoutProtocol.bind
              (lookupAssoc cfg.tenantsByPublicUrl)
            (configTenant, originWithProtocol, some hostWithProtocol)
    match branches with
    | (some configTenant, some publicUrl, some apiUrl) =>
      match dbTenants.find? (fun t => t.name = configTenant.name) with
      | none => .error (.validation "multitenant.require.invalidTenant")
      | some tenant =>
        .ok { tenant := tenant, urlConfig := configTenant.urlConfig,
              publicUrl := publicUrl, apiUrl := apiUrl }
    | _ => .error (.validation "multitenant.require.invalidTenant")

/-- Claim C4, counterexample — a request without a host header fails with
`multitenant.require.missingHostHeader`, not with
`multitenant.require.invalidTenant` as the claim states. -/
theorem c4_missing_host_counterexample :
    multitenantLoadByContext ⟨[], [], false⟩ false []
        ⟨none, none, none, "https"⟩
      = .error (.validation "multitenant.require.missingHostHeader") ∧
    AuthError.validation "multitenant.require.missingHostHeader"
      ≠ .validation "multitenant.require.invalidTenant" := by
  exact ⟨rfl, by decide⟩

/-- Claim C4 (amended) — when the host header is missing or blank, tenant
resolution from the request context fails with
`multitenant.require.missingHostHeader` at HTTP 400; when a host is present
but the headers match no enabled tenant (no api-URL index entry for the host
and no public-URL index entry for the origin or tenant-origin header), it
fails with `multitenant.require.invalidTenant` at HTTP 400. -/
theorem c4_tenant_resolution_failures (cfg : MultitenantConfig) (dev : Bool)
    (dbTenants : List DbTenant) (ctx : RequestCtx) :
    (normalizeHeader ctx.hostHeaderValue = none →
      multitenantLoadByContext cfg dev dbTenants ctx
        = .error (.validation "multitenant.require.missingHostHeader") ∧
      (AuthError.validation "multitenant.require.missingHostHeader").status = 400) ∧
    (∀ host, normalizeHeader ctx.hostHeaderValue = some host →
      lookupAssoc cfg.tenantsByApiUrl host = none →
      ctx.originWithoutProtocol.bind (lookupAssoc cfg.tenantsByPublicUrl) = none →
      ctx.tenantOriginWithoutProtocol.bind (lookupAssoc cfg.tenantsByPublicUrl) = none →
      multitenantLoadByContext cfg dev dbTenants ctx
        = .error (.validation "multitenant.require.invalidTenant") ∧
      (AuthError.validation "multitenant.require.invalidTenant").status = 400) := by
  constructor
  · intro hhost
    refine ⟨?_, rfl⟩
    unfold multitenantLoadByContext
    rw [hhost]
  · intro host hhost h1 h2 h3
    refine ⟨?_, rfl⟩
    unfold multitenantLoadByContext
    rw [hhost]
    rcases ho : ctx.originWithoutProtocol with _ | o <;>
      rcases hto : ctx.tenantOriginWithoutProtocol with _ | t <;>
      split_ifs <;>
      simp_all [Option.orElse]

/-- Concrete instantiation of C4: a blank host header, and a host that matches
no configured tenant. -/
theorem c4_tenant_resolution_failures_witness :
    multitenantLoadByContext
        ⟨[("pub.acme.example", ⟨"acme", [("pub.acme.example", ⟨"api.acme.example"⟩)]⟩)],
         [("api.acme.example", ⟨"acme", [("pub.acme.example", ⟨"api.acme.example"⟩)]⟩)],
         true⟩ false [] ⟨none, some "  ", none, "https"⟩
      = .error (.validation "multitenant.require.missingHostHeader") ∧
    multitenantLoadByContext
        ⟨[("pub.acme.example", ⟨"acme", [("pub.acme.example", ⟨"api.acme.example"⟩)]⟩)],
         [("api.acme.example", ⟨"acme", [("pub.acme.example", ⟨"api.acme.example"⟩)]⟩)],
         true⟩ false [] ⟨none, some "api.other.example", none, "https"⟩
      = .error (.validation "multitenant.require.invalidTenant") := by
  constructor
  · exact (c4_tenant_resolution_failures _ false [] ⟨none, some "  ", none, "https"⟩).1
      (by decide) |>.1
  · exact ((c4_tenant_resolution_failures _ false []
      ⟨none, some "api.other.example", none, "https"⟩).2
      "api.other.example" (by decide) (by decide) rfl rfl).1

/-! ## Rate limiting (`src/ratelimit/events.js`) -/

/-- JS `String.prototype.toLowerCase`, kernel-executable. -/
def jsToLower (s : String) : String :=
  ⟨s.data.map Char.toLower⟩

/-- JS `String.prototype.startsWith`, kernel-executable. -/
def jsStartsWith (s pre : String) : Bool :=
  pre.data.isPrefixOf s.data

/-- Per-key state of the `RateLimiterMemory` bucket: points consumed inside
the current duration window, the window start, and the optional block
deadline. Times in seconds, matching the limiter's configuration unit. -/
structure RateLimiterEntry where
  consumed : Nat
  windowStart : Int
  blockedUntil : Option Int
deriving Repr, DecidableEq

/-- The in-memory limiter keyed by client ip. -/
def RateLimiterState : Type := List (String × RateLimiterEntry)

/-- JS object property assignment `obj[key] = v`, modelled observationally:
the key now maps to `v` and every other key is untouched. -/
def setAssoc {α : Type} (l : List (String × α)) (key : String) (v : α) :
    List (String × α) :=
  (key, v) :: l.filter (fun p => p.1 ≠ key)

/-- Consuming from a key with no live window: start a fresh window at `now`. -/
def rateLimiterFresh (points : Nat) (blockDuration : Int) (now : Int)
    (cost : Nat) : RateLimiterEntry × Bool :=
  if cost ≤ points then
    ({ consumed := cost, windowStart := now, blockedUntil := none }, true)
  else
    ({ consumed := cost, windowStart := now,
       blockedUntil := some (now + blockDuration) }, false)

/-- Modelled from the spec: `RateLimiterMemory.consume` of the external
`rate-limiter-flexible` package (a dependency, not part of this repository),
as configured and described by §4.7 — a token bucket of `points` tokens per
`duration` seconds; consuming beyond the bucket rejects and blocks the key
for `blockDuration` seconds; entries expire lazily. -/
def rateLimiterConsume (points : Nat) (duration blockDuration : Int)
    (entry : Option RateLimiterEntry) (now : Int) (cost : Nat) :
    RateLimiterEntry × Bool :=
  match entry with
  | none => rateLimiterFresh points blockDuration now cost
  | some e =>
    match e.blockedUntil with
    | some t =>
      if now < t then (e, false)
      else rateLimiterFresh points blockDuration now cost
    | none =>
      if now < e.windowStart + duration then
        if e.consumed + cost ≤ points then
          ({ e with consumed := e.consumed + cost }, true)
        else
          ({ e with blockedUntil := some (now + blockDuration) }, false)
      else rateLimiterFresh points blockDuration now cost

/-- One request as seen by the rate-limit middleware. -/
structure RateRequest where
  method : String
  path : String
  ip : String
  time : Int
deriving Repr, DecidableEq

/-- `rateLimitInject` (ratelimit/events.js) applied to one request: skip
unless in production, non-GET and under `/auth/password`; the login route
consumes 2 points, every other matched route 1 point, from an 11-point /
60-second bucket with a 600-second block; a rejected consume surfaces as
`new AppError("server.internal.rateLimit", 429, ...)`. -/
def rateLimitMiddleware (isProduction : Bool) (st : RateLimiterState)
    (req : RateRequest) : RateLimiterState × Except AuthError Unit :=
  if ¬ isProduction ∨ jsToLower req.method = "get"
      ∨ ¬ jsStartsWith req.path "/auth/password" then
    (st, .ok ())
  else
    let cost := if req.path = "/auth/password-based/login" then 2 else 1
    let (entry, allowed) :=
      rateLimiterConsume 11 60 (10 * 60) (lookupAssoc st req.ip) req.time cost
    (setAssoc st req.ip entry,
     if allowed then .ok () else .error (.custom "server.internal.rateLimit" 429))

/-- Run the middleware over a sequence of requests, collecting each outcome. -/
def rateLimitRun (isProduction : Bool) (st : RateLimiterState) :
    List RateRequest → RateLimiterState × List (Except AuthError Unit)
  | [] => (st, [])
  | r :: rest =>
    let (st', res) := rateLimitMiddleware isProduction st r
    let (stF, results) := rateLimitRun isProduction st' rest
    (stF, res :: results)

theorem lookupAssoc_setAssoc {α : Type} (l : List (String × α)) (k : String)
    (v : α) : lookupAssoc (setAssoc l k v) k = some v := by
  unfold lookupAssoc setAssoc
  rw [List.find?_cons_of_pos _ (by simp)]
  rfl

theorem lookupAssoc_setAssoc_ne {α : Type} (l : List (String × α))
    (k k' : String) (v : α) (h : k' ≠ k) :
    lookupAssoc (setAssoc l k v) k' = lookupAssoc l k' := by
  unfold lookupAssoc setAssoc
  rw [List.find?_cons_of_neg _ (by simpa using fun he => absurd he.symm h)]
  congr 1
  induction l with
  | nil => rfl
  | cons a t ih =>
    by_cases hak : a.1 = k
    · rw [List.filter_cons_of_neg (by simpa using hak),
        List.find?_cons_of_neg _ (by simpa using hak ▸ fun he => absurd he.symm h)]
      exact ih
    · rw [List.filter_cons_of_pos (by simpa using hak)]
      by_cases hk' : a.1 = k'
      · rw [List.find?_cons_of_pos _ (by simpa using hk'),
          List.find?_cons_of_pos _ (by simpa using hk')]
      · rw [List.find?_cons_of_neg _ (by simpa using hk'),
          List.find?_cons_of_neg _ (by simpa using hk')]
        exact ih

theorem rateLimitRun_append (isProduction : Bool) (st : RateLimiterState)
    (l1 l2 : List RateRequest) :
    rateLimitRun isProduction st (l1 ++ l2)
      = ((rateLimitRun isProduction (rateLimitRun isProduction st l1).1 l2).1,
         (rateLimitRun isProduction st l1).2
           ++ (rateLimitRun isProduction (rateLimitRun isProduction st l1).1 l2).2) := by
  induction l1 generalizing st with
  | nil => simp [rateLimitRun]
  | cons r rest ih =>
    simp only [List.cons_append, rateLimitRun, List.append_eq]
    rw [ih]

/-- Inside a live 60-second window, each further 1-point request from the same
ip succeeds as long as the bucket stays within its 11 points, and the
consumed count goes up by one per request. -/
theorem rateLimitRun_within_budget (ip : String) (t₀ : Int) (c : Nat)
    (reqs : List RateRequest) (st : RateLimiterState)
    (hentry : lookupAssoc st ip = some ⟨c, t₀, none⟩)
    (hcount : c + reqs.length ≤ 11)
    (hr : ∀ r ∈ reqs, r.ip = ip ∧ jsToLower r.method ≠ "get" ∧
      jsStartsWith r.path "/auth/password" = true ∧
      r.path ≠ "/auth/password-based/login" ∧ r.time < t₀ + 60) :
    (rateLimitRun true st reqs).2 = List.replicate reqs.length (.ok ()) ∧
    lookupAssoc (rateLimitRun true st reqs).1 ip
      = some ⟨c + reqs.length, t₀, none⟩ := by
  induction reqs generalizing st c with
  | nil => simpa [rateLimitRun] using hentry
  | cons r rest ih =>
    obtain ⟨hip, hm, hp, hlogin, ht⟩ := hr r (by simp)
    have hskip : ¬ (¬ True ∨ jsToLower r.method = "get"
        ∨ ¬ jsStartsWith r.path "/auth/password") := by
      simp [hm, hp]
    have hmw : rateLimitMiddleware true st r
        = (setAssoc st ip ⟨c + 1, t₀, none⟩, .ok ()) := by
      unfold rateLimitMiddleware
      rw [if_neg (by simpa using hskip), if_neg hlogin, hip, hentry]
      have hc1 : c + 1 ≤ 11 := le_trans (by simp) hcount
      simp [rateLimiterConsume, if_pos ht, hc1]
    have hrest := ih (c + 1) (setAssoc st ip ⟨c + 1, t₀, none⟩)
      (lookupAssoc_setAssoc st ip _)
      (by simpa [Nat.add_assoc, Nat.add_comm 1 rest.length] using hcount)
      (fun x hx => hr x (by simp [hx]))
    simp only [rateLimitRun, hmw, List.length_cons, List.replicate_succ]
    refine ⟨by simp [hrest.1], ?_⟩
    rw [hrest.2]
    congr 2
    omega

/-- Claim C9 — per-ip rate limiting of the password routes in a production
deployment: a fresh-bucket login request consumes 2 points and any other
non-GET `/auth/password` request 1 point; 11 non-login requests from one ip
inside one 60-second window all pass, and a 12th request is rejected with
`server.internal.rateLimit` at HTTP 429, blocking the ip for 600 seconds. -/
theorem c9_password_route_rate_limit (ip : String) (st : RateLimiterState)
    (r1 r12 : RateRequest) (rest : List RateRequest)
    (hfresh : lookupAssoc st ip = none)
    (hlen : rest.length = 10)
    (hr : ∀ r ∈ r1 :: rest ++ [r12], r.ip = ip ∧ jsToLower r.method ≠ "get" ∧
      jsStartsWith r.path "/auth/password" = true ∧
      r.path ≠ "/auth/password-based/login" ∧
      r1.time ≤ r.time ∧ r.time < r1.time + 60) :
    (rateLimitRun true st (r1 :: rest ++ [r12])).2
      = List.replicate 11 (.ok ())
          ++ [.error (.custom "server.internal.rateLimit" 429)] ∧
    lookupAssoc (rateLimitRun true st (r1 :: rest ++ [r12])).1 ip
      = some ⟨11, r1.time, some (r12.time + 600)⟩ ∧
    (AuthError.custom "server.internal.rateLimit" 429).status = 429 ∧
    (∀ (st2 : RateLimiterState) (rl : RateRequest),
      lookupAssoc st2 rl.ip = none → jsToLower rl.method ≠ "get" →
      rl.path = "/auth/password-based/login" →
      rateLimitMiddleware true st2 rl
        = (setAssoc st2 rl.ip ⟨2, rl.time, none⟩, .ok ())) ∧
    (∀ (st2 : RateLimiterState) (rl : RateRequest),
      lookupAssoc st2 rl.ip = none → jsToLower rl.method ≠ "get" →
      jsStartsWith rl.path "/auth/password" = true →
      rl.path ≠ "/auth/password-based/login" →
      rateLimitMiddleware true st2 rl
        = (setAssoc st2 rl.ip ⟨1, rl.time, none⟩, .ok ())) := by
  obtain ⟨hip1, hm1, hp1, hlogin1, _, ht1⟩ := hr r1 (by simp)
  have hmw1 : rateLimitMiddleware true st r1
      = (setAssoc st ip ⟨1, r1.time, none⟩, .ok ()) := by
    unfold rateLimitMiddleware
    rw [if_neg (by simp [hm1, hp1]), if_neg hlogin1, hip1, hfresh]
    simp [rateLimiterConsume, rateLimiterFresh]
  have hinner := rateLimitRun_within_budget ip r1.time 1 rest
    (setAssoc st ip ⟨1, r1.time, none⟩) (lookupAssoc_setAssoc st ip _)
    (by omega)
    (fun x hx => by
      obtain ⟨a, b, c, d, _, e⟩ := hr x (by simp [hx])
      exact ⟨a, b, c, d, e⟩)
  obtain ⟨hip12, hm12, hp12, hlogin12, hge12, ht12⟩ := hr r12 (by simp)
  have hmw12 : rateLimitMiddleware true
      (rateLimitRun true (setAssoc st ip ⟨1, r1.time, none⟩) rest).1 r12
      = (setAssoc (rateLimitRun true (setAssoc st ip ⟨1, r1.time, none⟩) rest).1
          ip ⟨11, r1.time, some (r12.time + 600)⟩,
         .error (.custom "server.internal.rateLimit" 429)) := by
    unfold rateLimitMiddleware
    rw [if_neg (by simp [hm12, hp12]), if_neg hlogin12, hip12, hinner.2]
    simp [rateLimiterConsume, if_pos ht12, hlen]
  refine ⟨?_, ?_, rfl, ?_, ?_⟩
  · show (rateLimitRun true st ((r1 :: rest) ++ [r12])).2 = _
    rw [rateLimitRun_append]
    have hhead : rateLimitRun true st (r1 :: rest)
        = ((rateLimitRun true (setAssoc st ip ⟨1, r1.time, none⟩) rest).1,
           .ok () :: (rateLimitRun true (setAssoc st ip ⟨1, r1.time, none⟩) rest).2) := by
      simp only [rateLimitRun, hmw1]
    rw [hhead]
    simp only [rateLimitRun, hmw12, hinner.1, hlen]
    rfl
  · show lookupAssoc (rateLimitRun true st ((r1 :: rest) ++ [r12])).1 ip = _
    rw [rateLimitRun_append]
    have hhead : (rateLimitRun true st (r1 :: rest)).1
        = (rateLimitRun true (setAssoc st ip ⟨1, r1.time, none⟩) rest).1 := by
      simp only [rateLimitRun, hmw1]
    rw [hhead]
    simp only [rateLimitRun, hmw12]
    exact lookupAssoc_setAssoc _ ip _
  · intro st2 rl hf hm hl
    unfold rateLimitMiddleware
    rw [if_neg (by simp [hm, hl]; decide), if_pos hl, hf]
    simp [rateLimiterConsume, rateLimiterFresh]
  · intro st2 rl hf hm hsw hl
    unfold rateLimitMiddleware
    rw [if_neg (by simp [hm, hsw]), if_neg hl, hf]
    simp [rateLimiterConsume, rateLimiterFresh]

/-- Concrete instantiation of C9: twelve forgot-password POSTs from one ip at
seconds 0..11. -/
theorem c9_password_route_rate_limit_witness :
    (rateLimitRun true []
      [⟨"POST", "/auth/password-based/forgot-password", "9.9.9.9", 0⟩,
       ⟨"POST", "/auth/password-based/forgot-password", "9.9.9.9", 1⟩,
       ⟨"POST", "/auth/password-based/forgot-password", "9.9.9.9", 2⟩,
       ⟨"POST", "/auth/password-based/forgot-password", "9.9.9.9", 3⟩,
       ⟨"POST", "/auth/password-based/forgot-password", "9.9.9.9", 4⟩,
       ⟨"POST", "/auth/password-based/forgot-password", "9.9.9.9", 5⟩,
       ⟨"POST", "/auth/password-based/forgot-password", "9.9.9.9", 6⟩,
       ⟨"POST", "/auth/password-based/forgot-password", "9.9.9.9", 7⟩,
       ⟨"POST", "/auth/password-based/forgot-password", "9.9.9.9", 8⟩,
       ⟨"POST", "/auth/password-based/forgot-password", "9.9.9.9", 9⟩,
       ⟨"POST", "/auth/password-based/forgot-password", "9.9.9.9", 10⟩,
       ⟨"POST", "/auth/password-based/forgot-password", "9.9.9.9", 11⟩]).2
      = List.replicate 11 (.ok ())
          ++ [.error (.custom "server.internal.rateLimit" 429)] := by
  exact (c9_password_route_rate_limit "9.9.9.9" []
    ⟨"POST", "/auth/password-based/forgot-password", "9.9.9.9", 0⟩
    ⟨"POST", "/auth/password-based/forgot-password", "9.9.9.9", 11⟩
    [⟨"POST", "/auth/password-based/forgot-password", "9.9.9.9", 1⟩,
     ⟨"POST", "/auth/password-based/forgot-password", "9.9.9.9", 2⟩,
     ⟨"POST", "/auth/password-based/forgot-password", "9.9.9.9", 3⟩,
     ⟨"POST", "/auth/password-based/forgot-password", "9.9.9.9", 4⟩,
     ⟨"POST", "/auth/password-based/forgot-password", "9.9.9.9", 5⟩,
     ⟨"POST", "/auth/password-based/forgot-password", "9.9.9.9", 6⟩,
     ⟨"POST", "/auth/password-based/forgot-password", "9.9.9.9", 7⟩,
     ⟨"POST", "/auth/password-based/forgot-password", "9.9.9.9", 8⟩,
     ⟨"POST", "/auth/password-based/forgot-password", "9.9.9.9", 9⟩,
     ⟨"POST", "/auth/password-based/forgot-password", "9.9.9.9", 10⟩]
    rfl (by decide) (by decide)).1

/-! ## Permission engine (`src/auth/permissions/events.js`) -/

/-- A row of the `permission` table. -/
structure PermRow where
  id : Nat
  identifier : String
deriving Repr, DecidableEq

/-- A row of the `role` table; `tenant = none` means a global role. -/
structure RoleRow where
  id : Nat
  identifier : String
  tenant : Option Nat
deriving Repr, DecidableEq

/-- A row of the `userRole` link table. -/
structure UserRoleRow where
  id : Nat
  user : Nat
  role : Nat
deriving Repr, DecidableEq

/-- One mandatory-role declaration from the startup configuration. -/
structure PermissionMandatoryRole where
  identifier : String
  tenantId : Option Nat
  permissions : List String
deriving Repr, DecidableEq

/-- The database tables touched by the permission engine. `rolePermissions`
is the link table, modelled as the set of its `(role, permission)` link rows.
`nextId` generates fresh server-side row ids. -/
structure PermState where
  permissions : List PermRow
  roles : List RoleRow
  rolePermissions : Finset (Nat × Nat)
  userRoles : List UserRoleRow
  nextId : Nat
deriving DecidableEq

/-- Insert permission rows for the given identifiers, with server-generated
ids. -/
def insertPermRows (rows : List PermRow) (nextId : Nat) :
    List String → List PermRow × Nat
  | [] => (rows, nextId)
  | i :: rest => insertPermRows (rows ++ [⟨nextId, i⟩]) (nextId + 1) rest

/-- The `deletions` array of `authPermissionSyncPermissions`: ids of stored
permissions whose identifier is no longer in the catalog. -/
def permDeletions (st : PermState) (permissions : List String) : List Nat :=
  (st.permissions.filter (fun p => p.identifier ∉ permissions)).map (·.id)

/-- The `inserts` array of `authPermissionSyncPermissions`: catalog
identifiers with no stored row (`isNil(existingPermissionLookup[permission])`). -/
def permInserts (st : PermState) (permissions : List String) : List String :=
  permissions.filter (fun i => ¬ st.permissions.any (fun q => q.identifier = i))

/-- `authPermissionSyncPermissions` (permissions/events.js): reject duplicate
identifiers; delete stored permissions whose identifier left the catalog
(cascading their rolePermission links); insert catalog identifiers missing
from storage. -/
def authPermissionSyncPermissions (st : PermState) (permissions : List String) :
    Except AuthError PermState :=
  if ¬ permissions.Nodup then
    .error (.server "Duplicate permission identifier found.")
  else
    .ok { st with
      permissions := (insertPermRows
        (st.permissions.filter (fun p => p.id ∉ permDeletions st permissions))
        st.nextId (permInserts st permissions)).1,
      rolePermissions := st.rolePermissions.filter
        (fun pr => pr.2 ∉ permDeletions st permissions),
      nextId := (insertPermRows
        (st.permissions.filter (fun p => p.id ∉ permDeletions st permissions))
        st.nextId (permInserts st permissions)).2 }

/-- The `queryRole` filter used per mandatory role: match by identifier plus
`tenant = tenantId` (or `tenantIsNull` for a global role). -/
def roleMatches (m : PermissionMandatoryRole) (r : RoleRow) : Bool :=
  decide (r.identifier = m.identifier) &&
    (match m.tenantId with
     | some t => decide (r.tenant = some t)
     | none => decide (r.tenant = none))

/-- The rolePermission link rows inserted for one mandatory role: one link per
stored permission with a declared identifier. -/
def rolePairs (perms : List PermRow) (m : PermissionMandatoryRole) (rid : Nat) :
    Finset (Nat × Nat) :=
  ((perms.filter (fun p => p.identifier ∈ m.permissions)).map
    (fun p => (rid, p.id))).toFinset

/-- One iteration of the `authPermissionSyncMandatoryRoles` loop: find or
insert the role, clear its existing links when it already existed, fail
loudly when a declared permission is not stored, and insert the configured
links. Returns the static role id. -/
def roleStep (st : PermState) (m : PermissionMandatoryRole) :
    Except AuthError (PermState × Nat) :=
  match st.roles.find? (roleMatches m) with
  | none =>
    let newRole : RoleRow := ⟨st.nextId, m.identifier, m.tenantId⟩
    let st' := { st with roles := st.roles ++ [newRole], nextId := st.nextId + 1 }
    let dbPermissions := st'.permissions.filter
      (fun p => p.identifier ∈ m.permissions)
    if dbPermissions.length ≠ m.permissions.length then
      .error (.validation "authPermission.syncMandatoryRoles.invalidPermissions")
    else
      .ok ({ st' with rolePermissions :=
               st'.rolePermissions ∪ rolePairs st'.permissions m newRole.id },
           newRole.id)
  | some dbRole =>
    let st' := { st with rolePermissions :=
      st.rolePermissions.filter (fun pr => pr.1 ≠ dbRole.id) }
    let dbPermissions := st'.permissions.filter
      (fun p => p.identifier ∈ m.permissions)
    if dbPermissions.length ≠ m.permissions.length then
      .error (.validation "authPermission.syncMandatoryRoles.invalidPermissions")
    else
      .ok ({ st' with rolePermissions :=
               st'.rolePermissions ∪ rolePairs st'.permissions m dbRole.id },
           dbRole.id)

/-- The mandatory-role loop, collecting the static role ids in order. -/
def syncRolesLoop (st : PermState) :
    List PermissionMandatoryRole → Except AuthError (PermState × List Nat)
  | [] => .ok (st, [])
  | m :: rest => do
    let (st', rid) ← roleStep st m
    let (stF, ids) ← syncRolesLoop st' rest
    pure (stF, rid :: ids)

/-- `authPermissionSyncMandatoryRoles` (permissions/events.js): identifiers of
global mandatory roles must be unique, identifiers within one tenant must be
unique; then run the per-role loop. -/
def authPermissionSyncMandatoryRoles (st : PermState)
    (mandatoryRoles : List PermissionMandatoryRole) :
    Except AuthError (PermState × List Nat) :=
  if ¬ ((mandatoryRoles.filter (fun m => m.tenantId = none)).map
      (·.identifier)).Nodup then
    .error (.server
      "Identifiers of mandatory roles without tenant should be unique. Found a duplicate.")
  else if ¬ ((mandatoryRoles.filter (fun m => m.tenantId ≠ none)).map
      (fun m => (m.tenantId, m.identifier))).Nodup then
    .error (.server
      "Identifiers of mandatory roles for one tenant should be unique. Found a duplicate.")
  else
    syncRolesLoop st mandatoryRoles

/-- The startup synchronization: permission-catalog sync followed by
mandatory-role sync (`authPermissionSyncPermissions` then
`authPermissionSyncMandatoryRoles`, as wired in the auth init). -/
def authPermissionSync (st : PermState) (permissions : List String)
    (mandatoryRoles : List PermissionMandatoryRole) :
    Except AuthError (PermState × List Nat) := do
  let st' ← authPermissionSyncPermissions st permissions
  authPermissionSyncMandatoryRoles st' mandatoryRoles

/-- Database well-formedness: primary keys are unique and below the id
generator, and rolePermission rows reference generated role ids. -/
def PermInv (s : PermState) : Prop :=
  (s.permissions.map (·.id)).Nodup ∧
  (∀ p ∈ s.permissions, p.id < s.nextId) ∧
  (s.roles.map (·.id)).Nodup ∧
  (∀ r ∈ s.roles, r.id < s.nextId) ∧
  (∀ pr ∈ s.rolePermissions, pr.1 < s.nextId)

/-- A state in which re-running the mandatory-role step for `m` is a no-op
returning `rid`: the role row is found with id `rid`, its links are exactly
the configured ones, and all declared permissions are stored. -/
def ReplayReady (s : PermState) (m : PermissionMandatoryRole) (rid : Nat) : Prop :=
  (∃ row, s.roles.find? (roleMatches m) = some row ∧ row.id = rid) ∧
  s.rolePermissions.filter (fun pr => pr.1 = rid) = rolePairs s.permissions m rid ∧
  (s.permissions.filter (fun p => p.identifier ∈ m.permissions)).length
    = m.permissions.length

theorem mem_rolePairs (perms : List PermRow) (m : PermissionMandatoryRole)
    (rid : Nat) (pr : Nat × Nat) (h : pr ∈ rolePairs perms m rid) :
    pr.1 = rid := by
  unfold rolePairs at h
  rw [List.mem_toFinset] at h
  rcases List.mem_map.mp h with ⟨p, _, rfl⟩
  rfl

/-- Everything a successful mandatory-role step guarantees about the new
state. -/
theorem roleStep_post (s : PermState) (m : PermissionMandatoryRole)
    (s' : PermState) (rid : Nat) (hinv : PermInv s)
    (hstep : roleStep s m = .ok (s', rid)) :
    s'.permissions = s.permissions ∧
    s'.userRoles = s.userRoles ∧
    PermInv s' ∧
    s.nextId ≤ s'.nextId ∧
    (∃ tl, s'.roles = s.roles ++ tl) ∧
    (∃ row, s'.roles.find? (roleMatches m) = some row ∧ row.id = rid) ∧
    rid < s'.nextId ∧
    s'.rolePermissions.filter (fun pr => pr.1 = rid)
      = rolePairs s.permissions m rid ∧
    (∀ r : Nat, r ≠ rid → s'.rolePermissions.filter (fun pr => pr.1 = r)
        = s.rolePermissions.filter (fun pr => pr.1 = r)) ∧
    (s.permissions.filter (fun p => p.identifier ∈ m.permissions)).length
      = m.permissions.length := by
  obtain ⟨hpnodup, hpbound, hrnodup, hrbound, hrpbound⟩ := hinv
  unfold roleStep at hstep
  cases hfind : s.roles.find? (roleMatches m) with
  | some row =>
    simp only [hfind] at hstep
    by_cases hlen : (s.permissions.filter
        (fun p => p.identifier ∈ m.permissions)).length = m.permissions.length
    · rw [if_neg (by simpa using hlen)] at hstep
      rw [Except.ok.injEq, Prod.mk.injEq] at hstep
      obtain ⟨hs', hrid⟩ := hstep
      subst hs'
      subst hrid
      have hrowmem : row ∈ s.roles := List.mem_of_find?_eq_some hfind
      have hrowlt : row.id < s.nextId := hrbound row hrowmem
      refine ⟨rfl, rfl, ?_, le_refl _, ⟨[], by simp⟩,
        ⟨row, hfind, rfl⟩, hrowlt, ?_, ?_, hlen⟩
      · refine ⟨hpnodup, hpbound, hrnodup, hrbound, ?_⟩
        intro pr hpr
        rcases Finset.mem_union.mp hpr with h | h
        · exact hrpbound pr (Finset.mem_of_mem_filter pr h)
        · rw [mem_rolePairs _ _ _ _ h]
          exact hrowlt
      · ext pr
        simp only [Finset.mem_filter, Finset.mem_union]
        constructor
        · rintro ⟨h | h, heq⟩
          · exact absurd heq h.2
          · exact h
        · intro h
          exact ⟨Or.inr h, mem_rolePairs _ _ _ _ h⟩
      · intro r hr
        ext pr
        simp only [Finset.mem_filter, Finset.mem_union]
        constructor
        · rintro ⟨h | h, heq⟩
          · exact ⟨h.1, heq⟩
          · exact absurd (heq.symm.trans (mem_rolePairs _ _ _ _ h)) hr
        · rintro ⟨h, heq⟩
          exact ⟨Or.inl ⟨h, fun hc => hr (heq.symm.trans hc)⟩, heq⟩
    · rw [if_pos (by simpa using hlen)] at hstep
      cases hstep
  | none =>
    simp only [hfind] at hstep
    by_cases hlen : (s.permissions.filter
        (fun p => p.identifier ∈ m.permissions)).length = m.permissions.length
    · rw [if_neg (by simpa using hlen)] at hstep
      rw [Except.ok.injEq, Prod.mk.injEq] at hstep
      obtain ⟨hs', hrid⟩ := hstep
      subst hs'
      subst hrid
      have hmatch : roleMatches m ⟨s.nextId, m.identifier, m.tenantId⟩ = true := by
        unfold roleMatches
        cases m.tenantId <;> simp
      refine ⟨rfl, rfl, ?_, by simp, ⟨[⟨s.nextId, m.identifier, m.tenantId⟩], rfl⟩,
        ⟨⟨s.nextId, m.identifier, m.tenantId⟩, ?_, rfl⟩, by simp, ?_, ?_, hlen⟩
      · refine ⟨hpnodup, fun p hp => lt_trans (hpbound p hp) (by simp), ?_, ?_, ?_⟩
        · rw [List.map_append, List.nodup_append]
          refine ⟨hrnodup, by simp, ?_⟩
          intro x hx
          simp only [List.map_cons, List.map_nil, List.mem_singleton]
          intro hx1
          rcases List.mem_map.mp hx with ⟨r, hr, rfl⟩
          exact absurd (hx1 ▸ hrbound r hr) (lt_irrefl _)
        · intro r hr
          rcases List.mem_append.mp hr with h | h
          · exact lt_trans (hrbound r h) (by simp)
          · rw [List.mem_singleton] at h
            subst h
            simp
        · intro pr hpr
          rcases Finset.mem_union.mp hpr with h | h
          · exact lt_trans (hrpbound pr h) (by simp)
          · rw [mem_rolePairs _ _ _ _ h]
            simp
      · rw [List.find?_append, hfind, Option.none_or,
          List.find?_cons_of_pos _ hmatch]
      · ext pr
        simp only [Finset.mem_filter, Finset.mem_union]
        constructor
        · rintro ⟨h | h, heq⟩
          · exact absurd (heq ▸ hrpbound pr h) (lt_irrefl _)
          · exact h
        · intro h
          exact ⟨Or.inr h, mem_rolePairs _ _ _ _ h⟩
      · intro r hr
        ext pr
        simp only [Finset.mem_filter, Finset.mem_union]
        constructor
        · rintro ⟨h | h, heq⟩
          · exact ⟨h, heq⟩
          · exact absurd (heq.symm.trans (mem_rolePairs _ _ _ _ h)) hr
        · rintro ⟨h, heq⟩
          exact ⟨Or.inl h, heq⟩
    · rw [if_pos (by simpa using hlen)] at hstep
      cases hstep

theorem find?_append_of_some {α : Type} (p : α → Bool) (l t : List α) (x : α)
    (h : l.find? p = some x) : (l ++ t).find? p = some x := by
  rw [List.find?_append, h]
  rfl

theorem forall₂_mem_right {α β : Type} (R : α → β → Prop) (as : List α)
    (bs : List β) (h : List.Forall₂ R as bs) (b : β) (hb : b ∈ bs) :
    ∃ a ∈ as, R a b := by
  induction h with
  | nil => cases hb
  | cons hr _ ih =>
    rcases List.mem_cons.mp hb with rfl | hb'
    · exact ⟨_, by simp, hr⟩
    · obtain ⟨a, ha, hab⟩ := ih hb'
      exact ⟨a, by simp [ha], hab⟩

/-- A role row matches the mandatory-role query exactly when identifier and
tenant agree. -/
theorem roleMatches_iff (m : PermissionMandatoryRole) (r : RoleRow) :
    roleMatches m r = true ↔ (r.identifier = m.identifier ∧ r.tenant = m.tenantId) := by
  unfold roleMatches
  cases m.tenantId <;> simp

/-- Re-running the mandatory-role step in a replay-ready state is a no-op. -/
theorem roleStep_replay (s : PermState) (m : PermissionMandatoryRole) (rid : Nat)
    (h : ReplayReady s m rid) : roleStep s m = .ok (s, rid) := by
  obtain ⟨⟨row, hfind, hrowid⟩, hsect, hlen⟩ := h
  subst hrowid
  have hrp : s.rolePermissions.filter (fun pr => pr.1 ≠ row.id)
      ∪ rolePairs s.permissions m row.id = s.rolePermissions := by
    ext pr
    simp only [Finset.mem_union, Finset.mem_filter]
    constructor
    · rintro (⟨h1, _⟩ | h1)
      · exact h1
      · have hx : pr ∈ s.rolePermissions.filter (fun q => q.1 = row.id) := by
          rw [hsect]
          exact h1
        exact (Finset.mem_filter.mp hx).1
    · intro h1
      by_cases hq : pr.1 = row.id
      · exact Or.inr (hsect ▸ Finset.mem_filter.mpr ⟨h1, hq⟩)
      · exact Or.inl ⟨h1, hq⟩
  simp only [roleStep, hfind]
  rw [if_neg (by simpa using hlen)]
  rw [hrp]

/-- Re-running the whole mandatory-role loop in a replay-ready state returns
the same state and the same static role ids. -/
theorem syncRolesLoop_replay (s : PermState) (ms : List PermissionMandatoryRole)
    (ids : List Nat) (h : List.Forall₂ (ReplayReady s) ms ids) :
    syncRolesLoop s ms = .ok (s, ids) := by
  induction ms generalizing ids with
  | nil =>
    cases h
    rfl
  | cons m rest ih =>
    cases h with
    | cons hm hrest =>
      simp [syncRolesLoop, roleStep_replay s m _ hm, ih _ hrest,
        Bind.bind, Except.bind, Functor.map, Except.map, Pure.pure, Except.pure]

/-- Everything one successful mandatory-role loop run guarantees: the final
state is replay-ready for every processed entry, roles only grow, and the
link rows of untouched roles are unchanged. -/
theorem syncRolesLoop_post (ms : List PermissionMandatoryRole) (s sF : PermState)
    (ids : List Nat) (hinv : PermInv s)
    (hkeys : (ms.map (fun m => (m.identifier, m.tenantId))).Nodup)
    (hrun : syncRolesLoop s ms = .ok (sF, ids)) :
    sF.permissions = s.permissions ∧
    sF.userRoles = s.userRoles ∧
    PermInv sF ∧
    s.nextId ≤ sF.nextId ∧
    (∃ tl, sF.roles = s.roles ++ tl) ∧
    (∀ r : Nat, r ∉ ids → sF.rolePermissions.filter (fun pr => pr.1 = r)
        = s.rolePermissions.filter (fun pr => pr.1 = r)) ∧
    List.Forall₂ (ReplayReady sF) ms ids := by
  induction ms generalizing s ids with
  | nil =>
    simp only [syncRolesLoop] at hrun
    rw [Except.ok.injEq, Prod.mk.injEq] at hrun
    obtain ⟨hs, hids⟩ := hrun
    subst hs
    subst hids
    exact ⟨rfl, rfl, hinv, le_refl _, ⟨[], by simp⟩, fun r _ => rfl, List.Forall₂.nil⟩
  | cons m rest ih =>
    simp only [syncRolesLoop] at hrun
    cases hstep : roleStep s m with
    | error e =>
      rw [hstep] at hrun
      simp only [Bind.bind, Except.bind] at hrun
      cases hrun
    | ok pr =>
      obtain ⟨s', rid⟩ := pr
      rw [hstep] at hrun
      simp only [Bind.bind, Except.bind] at hrun
      cases hloop : syncRolesLoop s' rest with
      | error e =>
        rw [hloop] at hrun
        simp only [Functor.map, Except.map] at hrun
        cases hrun
      | ok pr2 =>
        obtain ⟨sF', ids'⟩ := pr2
        rw [hloop] at hrun
        simp only [Functor.map, Except.map, Pure.pure, Except.pure,
          Except.ok.injEq, Prod.mk.injEq] at hrun
        obtain ⟨hsF, hids⟩ := hrun
        subst hsF
        subst hids
        obtain ⟨hperm1, huser1, hinv', hnext1, ⟨tl1, hroles1⟩,
            ⟨row, hfindrow, hrowid⟩, hridlt, hsect1, hframe1, hlen1⟩ :=
          roleStep_post s m s' rid hinv hstep
        rw [List.map_cons, List.nodup_cons] at hkeys
        obtain ⟨hperm2, huser2, hinvF, hnext2, ⟨tl2, hroles2⟩, hframe2, hforall⟩ :=
          ih s' ids' hinv' hkeys.2 hloop
        have hfindF : sF'.roles.find? (roleMatches m) = some row := by
          rw [hroles2]
          exact find?_append_of_some _ _ _ _ hfindrow
        have hridnotin : rid ∉ ids' := by
          intro hmem
          obtain ⟨m', hm'mem, hm'rr⟩ := forall₂_mem_right _ _ _ hforall rid hmem
          obtain ⟨⟨row', hfind', hrow'id⟩, _, _⟩ := hm'rr
          have hrowmem : row ∈ sF'.roles := List.mem_of_find?_eq_some hfindF
          have hrow'mem : row' ∈ sF'.roles := List.mem_of_find?_eq_some hfind'
          have hroweq : row = row' :=
            List.inj_on_of_nodup_map hinvF.2.2.1 hrowmem hrow'mem
              (by rw [hrowid, hrow'id])
          have h1 := (roleMatches_iff m row).mp (List.find?_some hfindF)
          have h2 := (roleMatches_iff m' row').mp (List.find?_some hfind')
          refine hkeys.1 ?_
          have : (m.identifier, m.tenantId) = (m'.identifier, m'.tenantId) := by
            rw [← h1.1, ← h1.2, hroweq, h2.1, h2.2]
          rw [this]
          exact List.mem_map_of_mem _ hm'mem
        refine ⟨hperm2.trans hperm1, huser2.trans huser1, hinvF,
          le_trans hnext1 hnext2,
          ⟨tl1 ++ tl2, by rw [hroles2, hroles1, List.append_assoc]⟩, ?_, ?_⟩
        · intro r hr
          rw [List.mem_cons] at hr
          push_neg at hr
          rw [hframe2 r hr.2, hframe1 r hr.1]
        · refine List.Forall₂.cons ⟨⟨row, hfindF, hrowid⟩, ?_, ?_⟩ hforall
          · rw [hframe2 rid hridnotin, hsect1, hperm2, hperm1]
          · rw [hperm2, hperm1]
            exact hlen1

theorem insertPermRows_spec (idents : List String) (rows : List PermRow) (n : Nat) :
    ∃ extra : List PermRow,
      insertPermRows rows n idents = (rows ++ extra, n + idents.length) ∧
      extra.map (·.identifier) = idents ∧
      (∀ p ∈ extra, n ≤ p.id ∧ p.id < n + idents.length) ∧
      (extra.map (·.id)).Nodup := by
  induction idents generalizing rows n with
  | nil => exact ⟨[], by simp [insertPermRows], rfl, by simp, by simp⟩
  | cons i rest ih =>
    obtain ⟨extra, heq, hid, hbound, hnodup⟩ := ih (rows ++ [⟨n, i⟩]) (n + 1)
    refine ⟨⟨n, i⟩ :: extra, ?_, by simpa using hid, ?_, ?_⟩
    · rw [insertPermRows, heq, List.append_assoc]
      have hn : n + 1 + rest.length = n + (i :: rest).length := by
        rw [List.length_cons]
        omega
      rw [hn]
      rfl
    · intro p hp
      rcases List.mem_cons.mp hp with rfl | hp'
      · exact ⟨Nat.le_refl n, Nat.lt_add_of_pos_right (Nat.succ_pos _)⟩
      · obtain ⟨h1, h2⟩ := hbound p hp'
        refine ⟨by omega, ?_⟩
        show p.id < n + (rest.length + 1)
        omega
    · rw [List.map_cons, List.nodup_cons]
      refine ⟨?_, hnodup⟩
      intro hc
      rcases List.mem_map.mp hc with ⟨p, hp, hpid⟩
      obtain ⟨h1, _⟩ := hbound p hp
      have hpn : p.id = n := hpid
      omega

/-- Facts that a successful permission-catalog sync establishes about the new
state: the stored catalog equals the declared one, keys stay well-formed, and
roles / userRoles are untouched. -/
theorem authPermissionSyncPermissions_post (s stP : PermState)
    (catalog : List String) (hinv : PermInv s)
    (h : authPermissionSyncPermissions s catalog = .ok stP) :
    catalog.Nodup ∧
    (∀ p ∈ stP.permissions, p.identifier ∈ catalog) ∧
    (∀ i ∈ catalog, ∃ p ∈ stP.permissions, p.identifier = i) ∧
    PermInv stP ∧
    stP.roles = s.roles ∧
    stP.userRoles = s.userRoles ∧
    s.nextId ≤ stP.nextId := by
  obtain ⟨hpnodup, hpbound, hrnodup, hrbound, hrpbound⟩ := hinv
  unfold authPermissionSyncPermissions at h
  by_cases hdup : catalog.Nodup
  · rw [if_neg (by simpa using hdup)] at h
    obtain ⟨extra, heq, hidents, hbound, hexnodup⟩ :=
      insertPermRows_spec (permInserts s catalog)
        (s.permissions.filter (fun p => p.id ∉ permDeletions s catalog))
        s.nextId
    rw [heq, Except.ok.injEq] at h
    subst h
    have hkeepmem : ∀ p,
        p ∈ s.permissions.filter (fun p => p.id ∉ permDeletions s catalog)
        ↔ (p ∈ s.permissions ∧ p.identifier ∈ catalog) := by
      intro p
      rw [List.mem_filter]
      constructor
      · rintro ⟨hp, hnd⟩
        refine ⟨hp, ?_⟩
        by_contra hni
        simp only [permDeletions, decide_eq_true_eq, List.mem_map, not_exists,
          not_and] at hnd
        have hmemf : p ∈ s.permissions.filter
            (fun p => p.identifier ∉ catalog) :=
          List.mem_filter.mpr ⟨hp, by simpa using hni⟩
        exact hnd p hmemf rfl
      · rintro ⟨hp, hin⟩
        refine ⟨hp, ?_⟩
        simp only [permDeletions, decide_eq_true_eq, List.mem_map, not_exists,
          not_and]
        intro q hq hqid
        have hq' := List.mem_filter.mp hq
        have : q = p := List.inj_on_of_nodup_map hpnodup
          (List.mem_filter.mp hq).1 hp hqid
        rw [this] at hq'
        have hq2 : p.identifier ∉ catalog := by simpa using hq'.2
        exact hq2 hin
    refine ⟨hdup, ?_, ?_, ?_, rfl, rfl, by simp⟩
    · intro p hp
      rcases List.mem_append.mp hp with hk | hx
      · exact ((hkeepmem p).mp hk).2
      · have hmem : p.identifier ∈ extra.map (·.identifier) :=
          List.mem_map_of_mem _ hx
        rw [hidents] at hmem
        unfold permInserts at hmem
        exact List.mem_of_mem_filter hmem
    · intro i hi
      by_cases hex : s.permissions.any (fun q => q.identifier = i)
      · rcases List.any_eq_true.mp hex with ⟨q, hq, hqi⟩
        rw [decide_eq_true_eq] at hqi
        exact ⟨q, List.mem_append.mpr (Or.inl ((hkeepmem q).mpr ⟨hq, hqi ▸ hi⟩)), hqi⟩
      · have hmem : i ∈ extra.map (·.identifier) := by
          rw [hidents]
          unfold permInserts
          exact List.mem_filter.mpr ⟨hi, by simpa using hex⟩
        rcases List.mem_map.mp hmem with ⟨p, hp, hpi⟩
        exact ⟨p, List.mem_append.mpr (Or.inr hp), hpi⟩
    · refine ⟨?_, ?_, hrnodup, ?_, ?_⟩
      · rw [List.map_append, List.nodup_append]
        refine ⟨?_, hexnodup, ?_⟩
        · exact ((List.filter_sublist _).map _).nodup hpnodup
        · intro x hx
          rcases List.mem_map.mp hx with ⟨p, hp, rfl⟩
          have hplt : p.id < s.nextId := hpbound p ((hkeepmem p).mp hp).1
          intro hc
          rcases List.mem_map.mp hc with ⟨q, hq, hqid⟩
          obtain ⟨h1, _⟩ := hbound q hq
          omega
      · intro p hp
        rcases List.mem_append.mp hp with hk | hx
        · exact lt_of_lt_of_le (hpbound p ((hkeepmem p).mp hk).1)
            (Nat.le_add_right _ _)
        · exact (hbound p hx).2
      · intro r hr
        exact lt_of_lt_of_le (hrbound r hr) (Nat.le_add_right _ _)
      · intro pr hpr
        exact lt_of_lt_of_le (hrpbound pr (Finset.mem_of_mem_filter pr hpr))
          (Nat.le_add_right _ _)
  · rw [if_pos (by simpa using hdup)] at h
    cases h

/-- Running the permission-catalog sync on a state whose stored catalog
already equals the declared one is a no-op. -/
theorem authPermissionSyncPermissions_replay (s : PermState)
    (catalog : List String) (hnodup : catalog.Nodup)
    (hsub : ∀ p ∈ s.permissions, p.identifier ∈ catalog)
    (hcover : ∀ i ∈ catalog, ∃ p ∈ s.permissions, p.identifier = i) :
    authPermissionSyncPermissions s catalog = .ok s := by
  unfold authPermissionSyncPermissions
  rw [if_neg (by simpa using hnodup)]
  have hdel : permDeletions s catalog = [] := by
    unfold permDeletions
    rw [List.map_eq_nil, List.filter_eq_nil]
    intro p hp
    simpa using hsub p hp
  have hins : permInserts s catalog = [] := by
    unfold permInserts
    rw [List.filter_eq_nil]
    intro i hi
    obtain ⟨p, hp, hpi⟩ := hcover i hi
    have hany : (s.permissions.any fun q => decide (q.identifier = i)) = true :=
      List.any_eq_true.mpr ⟨p, hp, by simpa using hpi⟩
    simp [hany]
  rw [hdel, hins]
  have hkeep : s.permissions.filter
      (fun p => p.id ∉ ([] : List Nat)) = s.permissions := by
    rw [List.filter_eq_self]
    intro p _
    simp
  have hrp : s.rolePermissions.filter
      (fun pr => pr.2 ∉ ([] : List Nat)) = s.rolePermissions := by
    ext pr
    simp
  rw [hkeep, hrp]
  simp only [insertPermRows]

/-- The two duplicate checks of `authPermissionSyncMandatoryRoles` together
make the (identifier, tenant) keys of the declarations pairwise distinct. -/
theorem mandatory_keys_nodup (ms : List PermissionMandatoryRole)
    (hg : ((ms.filter (fun m => m.tenantId = none)).map (·.identifier)).Nodup)
    (ht : ((ms.filter (fun m => m.tenantId ≠ none)).map
      (fun m => (m.tenantId, m.identifier))).Nodup) :
    (ms.map (fun m => (m.identifier, m.tenantId))).Nodup := by
  induction ms with
  | nil => simp
  | cons m rest ih =>
    rw [List.map_cons, List.nodup_cons]
    cases htid : m.tenantId with
    | none =>
      rw [List.filter_cons_of_pos (by simp [htid])] at hg
      rw [List.filter_cons_of_neg (by simp [htid])] at ht
      rw [List.map_cons, List.nodup_cons] at hg
      refine ⟨?_, ih hg.2 ht⟩
      intro hc
      rcases List.mem_map.mp hc with ⟨m', hm', heq⟩
      rw [Prod.mk.injEq] at heq
      refine hg.1 ?_
      rw [← heq.1]
      exact List.mem_map_of_mem _
        (List.mem_filter.mpr ⟨hm', by simp [heq.2, htid]⟩)
    | some t =>
      rw [List.filter_cons_of_neg (by simp [htid])] at hg
      rw [List.filter_cons_of_pos (by simp [htid])] at ht
      rw [List.map_cons, List.nodup_cons] at ht
      refine ⟨?_, ih hg ht.2⟩
      intro hc
      rcases List.mem_map.mp hc with ⟨m', hm', heq⟩
      rw [Prod.mk.injEq] at heq
      refine ht.1 ?_
      have hmem : m' ∈ rest.filter (fun m => m.tenantId ≠ none) :=
        List.mem_filter.mpr ⟨hm', by simp [heq.2, htid]⟩
      have : (m'.tenantId, m'.identifier) = (m.tenantId, m.identifier) := by
        rw [Prod.mk.injEq]
        exact ⟨heq.2.trans htid.symm, heq.1⟩
      rw [← this]
      exact List.mem_map_of_mem _ hmem

/-- Claim C7 — running the startup synchronization (permission-catalog sync
followed by mandatory-role sync) twice with the same configuration is
idempotent: starting from a well-formed database, the second run leaves the
permission, role and role-permission tables exactly as the first run
produced them and returns the same static role ids. -/
theorem c7_startup_sync_idempotent (st : PermState) (catalog : List String)
    (mandatoryRoles : List PermissionMandatoryRole) (st1 : PermState)
    (ids : List Nat) (hinv : PermInv st)
    (h1 : authPermissionSync st catalog mandatoryRoles = .ok (st1, ids)) :
    authPermissionSync st1 catalog mandatoryRoles = .ok (st1, ids) := by
  unfold authPermissionSync at h1 ⊢
  cases hsp : authPermissionSyncPermissions st catalog with
  | error e =>
    rw [hsp] at h1
    simp only [Bind.bind, Except.bind] at h1
    cases h1
  | ok stP =>
    rw [hsp] at h1
    simp only [Bind.bind, Except.bind] at h1
    obtain ⟨hdup, hsubP, hcoverP, hinvP, hrolesP, huserP, hnextP⟩ :=
      authPermissionSyncPermissions_post st stP catalog hinv hsp
    unfold authPermissionSyncMandatoryRoles at h1
    by_cases hgc : ((mandatoryRoles.filter (fun m => m.tenantId = none)).map
        (·.identifier)).Nodup
    swap
    · rw [if_pos (by simpa using hgc)] at h1
      cases h1
    rw [if_neg (by simpa using hgc)] at h1
    by_cases htc : ((mandatoryRoles.filter (fun m => m.tenantId ≠ none)).map
        (fun m => (m.tenantId, m.identifier))).Nodup
    swap
    · rw [if_pos (by simpa using htc)] at h1
      cases h1
    rw [if_neg (by simpa using htc)] at h1
    have hkeys := mandatory_keys_nodup mandatoryRoles hgc htc
    obtain ⟨hperm, huser, hinv1, hnext, ⟨tl, hroles⟩, hframe, hforall⟩ :=
      syncRolesLoop_post mandatoryRoles stP st1 ids hinvP hkeys h1
    have hsp2 : authPermissionSyncPermissions st1 catalog = .ok st1 :=
      authPermissionSyncPermissions_replay st1 catalog hdup
        (fun p hp => hsubP p (hperm ▸ hp))
        (fun i hi => by
          rw [hperm]
          exact hcoverP i hi)
    rw [hsp2]
    simp only [Bind.bind, Except.bind]
    unfold authPermissionSyncMandatoryRoles
    rw [if_neg (by simpa using hgc), if_neg (by simpa using htc)]
    exact syncRolesLoop_replay st1 mandatoryRoles ids hforall

/-- Concrete instantiation of C7: an empty database, one permission and one
global mandatory role; the first run creates the rows, the second run
returns them untouched. -/
theorem c7_startup_sync_idempotent_witness :
    authPermissionSync
        ⟨[⟨0, "perm:a"⟩], [⟨1, "admin", none⟩], {(1, 0)}, [], 2⟩
        ["perm:a"] [⟨"admin", none, ["perm:a"]⟩]
      = .ok (⟨[⟨0, "perm:a"⟩], [⟨1, "admin", none⟩], {(1, 0)}, [], 2⟩, [1]) := by
  exact c7_startup_sync_idempotent ⟨[], [], ∅, [], 0⟩ ["perm:a"]
    [⟨"admin", none, ["perm:a"]⟩]
    ⟨[⟨0, "perm:a"⟩], [⟨1, "admin", none⟩], {(1, 0)}, [], 2⟩ [1]
    (by constructor <;> simp) rfl

/-! ## User role synchronization (`authPermissionUserSyncRoles`) -/

/-- A user's joined role row: the `userRole` row id plus the joined `role`. -/
structure JoinedUserRole where
  id : Nat
  role : RoleRow
deriving Repr, DecidableEq

/-- The joined user object handed to the permission operations. -/
structure PermUser where
  id : Nat
  roles : List JoinedUserRole
deriving Repr, DecidableEq

/-- The `roles` part of `authPermissionUserSummary`: the user's role ids and
identifiers. The source also sorts these by identifier and aggregates the
permission identifiers; neither affects the membership-based delta below. -/
def authPermissionUserSummaryRoles (user : PermUser) : List (Nat × String) :=
  user.roles.map (fun ur => (ur.role.id, ur.role.identifier))

/-- Insert one `userRole` row per new role, with server-generated ids. -/
def insertUserRoleRows (rows : List UserRoleRow) (nextId : Nat) (userId : Nat) :
    List RoleRow → List UserRoleRow × Nat
  | [] => (rows, nextId)
  | r :: rest =>
    insertUserRoleRows (rows ++ [⟨nextId, userId, r.id⟩]) (nextId + 1) userId rest

/-- The `queryUserRole` re-query at the end of `userSyncRoles`: the user's
userRole rows joined with their roles. -/
def queryUserRoles (st : PermState) (userId : Nat) : List JoinedUserRole :=
  (st.userRoles.filter (fun r => r.user = userId)).filterMap
    (fun r => (st.roles.find? (fun ro => ro.id = r.role)).map
      (fun ro => JoinedUserRole.mk r.id ro))

/-- `authPermissionUserSyncRoles` (permissions/events.js): reject a missing
user and a call with both `idIn` and `identifierIn`; an empty effective list
(`idIn ?? identifierIn ?? []`) deletes every role of the user; otherwise
remove the user's roles not in the list, add listed roles the user lacks
(failing when a listed role does not exist), and re-query the memberships. -/
def authPermissionUserSyncRoles (st : PermState) :
    Option PermUser → Option (List Nat) → Option (List String) →
    Except AuthError (PermState × PermUser)
  | none, _, _ =>
    .error (.validation "authPermission.userSyncRoles.invalidUser")
  | some user, idIn, identifierIn =>
    if idIn.isSome ∧ identifierIn.isSome then
      .error (.validation "authPermission.userSyncRoles.invalidArgument")
    else
      let isIdIn := identifierIn.isNone
      let idList := idIn.getD []
      let identifierList := identifierIn.getD []
      if (if isIdIn then idList.length else identifierList.length) = 0 then
        .ok ({ st with userRoles :=
                 st.userRoles.filter (fun r => ¬ (r.user = user.id)) },
             { user with roles := [] })
      else
        let roles := authPermissionUserSummaryRoles user
        let removedRoles := roles.filter (fun r =>
          if isIdIn then r.1 ∉ idList else r.2 ∉ identifierList)
        let newIds := idList.filter (fun i => ¬ roles.any (fun r => r.1 = i))
        let newIdentifiers := identifierList.filter
          (fun i => ¬ roles.any (fun r => r.2 = i))
        let stDel := if removedRoles.length ≠ 0 then
            { st with userRoles := st.userRoles.filter (fun row =>
                ¬ (row.user = user.id ∧ row.role ∈ removedRoles.map (·.1))) }
          else st
        let newCount := if isIdIn then newIds.length else newIdentifiers.length
        if newCount ≠ 0 then
          let dbRoles := if isIdIn then
              stDel.roles.filter (fun r => r.id ∈ newIds)
            else stDel.roles.filter (fun r => r.identifier ∈ newIdentifiers)
          if dbRoles.length ≠ newCount then
            .error (.validation "authPermission.userSyncRoles.unknownRoleIdentifier")
          else
            let stIns := { stDel with
              userRoles := (insertUserRoleRows stDel.userRoles stDel.nextId
                user.id dbRoles).1,
              nextId := (insertUserRoleRows stDel.userRoles stDel.nextId
                user.id dbRoles).2 }
            .ok (stIns, { user with roles := queryUserRoles stIns user.id })
        else
          .ok (stDel, { user with roles := queryUserRoles stDel user.id })

theorem map_key_filter {α κ : Type} (key : α → κ) (p : κ → Bool) (l : List α) :
    (l.filter (fun r => p (key r))).map key = (l.map key).filter p := by
  induction l with
  | nil => rfl
  | cons a t ih =>
    by_cases hp : p (key a) = true
    · simp only [List.map_cons, List.filter_cons, hp, if_true]
      rw [ih]
    · have hp' : p (key a) = false := by simpa using hp
      simp only [List.map_cons, List.filter_cons, hp', Bool.false_eq_true,
        if_false]
      exact ih

/-- Selecting table rows by a unique key from a duplicate-free selection list
finds exactly one row per selected key. -/
theorem filter_key_length {α κ : Type} [DecidableEq κ] (key : α → κ)
    (rows : List α) (sel : List κ)
    (hnodup : (rows.map key).Nodup) (hselnodup : sel.Nodup)
    (hex : ∀ i ∈ sel, ∃ r ∈ rows, key r = i) :
    (rows.filter (fun r => key r ∈ sel)).length = sel.length := by
  have hmapeq : (rows.filter (fun r => key r ∈ sel)).map key
      = (rows.map key).filter (fun k => k ∈ sel) :=
    map_key_filter key (fun k => k ∈ sel) rows
  have hlen : (rows.filter (fun r => key r ∈ sel)).length
      = ((rows.map key).filter (fun k => k ∈ sel)).length := by
    rw [← hmapeq, List.length_map]
  rw [hlen]
  have hfnodup : ((rows.map key).filter (fun k => k ∈ sel)).Nodup :=
    hnodup.filter _
  have hperm : List.Perm ((rows.map key).filter (fun k => k ∈ sel)) sel := by
    refine List.perm_of_nodup_nodup_toFinset_eq hfnodup hselnodup ?_
    ext k
    simp only [List.mem_toFinset, List.mem_filter, decide_eq_true_eq]
    constructor
    · rintro ⟨_, hk⟩
      exact hk
    · intro hk
      obtain ⟨r, hr, hkey⟩ := hex k hk
      exact ⟨hkey ▸ List.mem_map_of_mem key hr, hk⟩
  exact hperm.length_eq

/-- Claim C8, counterexample — a call to `userSyncRoles` supplying neither
`idIn` nor `identifierIn` does not fail: it succeeds and removes all the
user's roles. -/
theorem c8_neither_argument_counterexample :
    authPermissionUserSyncRoles
        ⟨[], [⟨1, "admin", none⟩], ∅, [⟨5, 7, 1⟩], 10⟩
        (some ⟨7, [⟨5, ⟨1, "admin", none⟩⟩]⟩) none none
      = .ok (⟨[], [⟨1, "admin", none⟩], ∅, [], 10⟩, ⟨7, []⟩) := by
  rfl

theorem insertUserRoleRows_spec (dbRoles : List RoleRow)
    (rows : List UserRoleRow) (n uid : Nat) :
    ∃ extra, insertUserRoleRows rows n uid dbRoles
        = (rows ++ extra, n + dbRoles.length) ∧
      extra.map (·.role) = dbRoles.map (·.id) ∧
      (∀ row ∈ extra, row.user = uid) := by
  induction dbRoles generalizing rows n with
  | nil => exact ⟨[], by simp [insertUserRoleRows], rfl, by simp⟩
  | cons r rest ih =>
    obtain ⟨extra, heq, hroles, husers⟩ := ih (rows ++ [⟨n, uid, r.id⟩]) (n + 1)
    refine ⟨⟨n, uid, r.id⟩ :: extra, ?_, by simpa using hroles, ?_⟩
    · rw [insertUserRoleRows, heq, List.append_assoc]
      have hn : n + 1 + rest.length = n + (r :: rest).length := by
        rw [List.length_cons]
        omega
      rw [hn]
      rfl
    · intro row hrow
      rcases List.mem_cons.mp hrow with rfl | hrow'
      · rfl
      · exact husers row hrow'

/-- Claim C8 (amended) — `userSyncRoles` argument handling and delta.
(a) supplying both `idIn` and `identifierIn` fails with `invalidArgument`;
(b) supplying neither is accepted: it is treated as an empty role list and
removes every role of the user; (c) supplying only `idIn` syncs the user's
role memberships to exactly the listed role ids, removing unlisted roles and
adding listed roles the user lacks, leaving other users' rows untouched;
(d) the same for `identifierIn`, keyed by role identifier. -/
theorem c8_user_sync_roles (st : PermState) (user : PermUser) :
    (∀ (l1 : List Nat) (l2 : List String),
      authPermissionUserSyncRoles st (some user) (some l1) (some l2)
        = .error (.validation "authPermission.userSyncRoles.invalidArgument")) ∧
    (authPermissionUserSyncRoles st (some user) none none
      = .ok ({ st with userRoles :=
                 st.userRoles.filter (fun r => ¬ (r.user = user.id)) },
             { user with roles := [] })) ∧
    (∀ (l : List Nat) (st' : PermState) (user' : PermUser),
      l ≠ [] → l.Nodup →
      (st.roles.map (·.id)).Nodup →
      (user.roles.map (·.role.id)).Nodup →
      (∀ i ∈ l, ∃ r ∈ st.roles, r.id = i) →
      (∀ rid : Nat, (∃ ur ∈ user.roles, ur.role.id = rid)
        ↔ (∃ row ∈ st.userRoles, row.user = user.id ∧ row.role = rid)) →
      authPermissionUserSyncRoles st (some user) (some l) none
        = .ok (st', user') →
      (∀ rid : Nat,
        (∃ row ∈ st'.userRoles, row.user = user.id ∧ row.role = rid)
          ↔ rid ∈ l) ∧
      (∀ row ∈ st.userRoles, row.user ≠ user.id → row ∈ st'.userRoles) ∧
      (∀ row ∈ st'.userRoles, row.user ≠ user.id → row ∈ st.userRoles)) ∧
    (∀ (l : List String) (st' : PermState) (user' : PermUser),
      l ≠ [] → l.Nodup →
      (st.roles.map (·.id)).Nodup →
      (st.roles.map (·.identifier)).Nodup →
      (user.roles.map (·.role.id)).Nodup →
      (∀ ur ∈ user.roles, ur.role ∈ st.roles) →
      (∀ i ∈ l, ∃ r ∈ st.roles, r.identifier = i) →
      (∀ rid : Nat, (∃ ur ∈ user.roles, ur.role.id = rid)
        ↔ (∃ row ∈ st.userRoles, row.user = user.id ∧ row.role = rid)) →
      authPermissionUserSyncRoles st (some user) none (some l)
        = .ok (st', user') →
      (∀ ident : String,
        (∃ row ∈ st'.userRoles, row.user = user.id ∧
          ∃ r ∈ st.roles, r.id = row.role ∧ r.identifier = ident)
          ↔ ident ∈ l) ∧
      (∀ row ∈ st.userRoles, row.user ≠ user.id → row ∈ st'.userRoles) ∧
      (∀ row ∈ st'.userRoles, row.user ≠ user.id → row ∈ st.userRoles)) := by
  refine ⟨?_, ?_, ?_, ?_⟩
  · intro l1 l2
    rfl
  · rfl
  · intro l st' user' hne hlnodup hrnodup hunodup hex hcoh hrun
    simp only [authPermissionUserSyncRoles, Option.isSome_some,
      Option.isSome_none, Option.isNone_none, Option.getD_some,
      Option.getD_none, Bool.false_eq_true, and_false, if_false, ite_true,
      ite_false, if_true] at hrun
    rw [if_neg (by simpa using hne)] at hrun
    have hsummary : ∀ rid : Nat,
        (∃ p ∈ authPermissionUserSummaryRoles user, p.1 = rid)
          ↔ (∃ ur ∈ user.roles, ur.role.id = rid) := by
      intro rid
      unfold authPermissionUserSummaryRoles
      constructor
      · rintro ⟨p, hp, hp1⟩
        rcases List.mem_map.mp hp with ⟨ur, hur, rfl⟩
        exact ⟨ur, hur, hp1⟩
      · rintro ⟨ur, hur, hid⟩
        exact ⟨(ur.role.id, ur.role.identifier),
          List.mem_map_of_mem _ hur, hid⟩
    have hremiff : ∀ rid : Nat,
        rid ∈ ((authPermissionUserSummaryRoles user).filter
          (fun r => r.1 ∉ l)).map (·.1)
          ↔ ((∃ ur ∈ user.roles, ur.role.id = rid) ∧ rid ∉ l) := by
      intro rid
      constructor
      · intro h
        rcases List.mem_map.mp h with ⟨p, hp, rfl⟩
        have hp' := List.mem_filter.mp hp
        have hp2 : p.1 ∉ l := by simpa using hp'.2
        exact ⟨(hsummary p.1).mp ⟨p, hp'.1, rfl⟩, hp2⟩
      · rintro ⟨hmem, hnl⟩
        obtain ⟨p, hp, hp1⟩ := (hsummary rid).mpr hmem
        refine hp1 ▸ List.mem_map_of_mem _
          (List.mem_filter.mpr ⟨hp, by simpa [hp1] using hnl⟩)
    have hkept : ∀ rid : Nat,
        (∃ row ∈ st.userRoles.filter (fun row =>
            ¬ (row.user = user.id ∧ row.role ∈
              ((authPermissionUserSummaryRoles user).filter
                (fun r => r.1 ∉ l)).map (·.1))),
          row.user = user.id ∧ row.role = rid)
          ↔ ((∃ ur ∈ user.roles, ur.role.id = rid) ∧ rid ∈ l) := by
      intro rid
      constructor
      · rintro ⟨row, hrow, huid, hrole⟩
        have hrow' := List.mem_filter.mp hrow
        have horig : ∃ ur ∈ user.roles, ur.role.id = rid :=
          (hcoh rid).mpr ⟨row, hrow'.1, huid, hrole⟩
        refine ⟨horig, ?_⟩
        by_contra hnl
        have : row.role ∈ ((authPermissionUserSummaryRoles user).filter
            (fun r => r.1 ∉ l)).map (·.1) :=
          hrole ▸ (hremiff rid).mpr ⟨horig, hnl⟩
        have hnot : ¬ (row.user = user.id ∧ row.role ∈
            ((authPermissionUserSummaryRoles user).filter
              (fun r => r.1 ∉ l)).map (·.1)) := of_decide_eq_true hrow'.2
        exact hnot ⟨huid, this⟩
      · rintro ⟨hmem, hin⟩
        obtain ⟨row, hrow, huid, hrole⟩ := (hcoh rid).mp hmem
        refine ⟨row, List.mem_filter.mpr ⟨hrow, ?_⟩, huid, hrole⟩
        rw [decide_eq_true_eq]
        rintro ⟨-, hc⟩
        rw [hrole] at hc
        exact ((hremiff rid).mp hc).2 hin
    have hkeptother : ∀ row, row.user ≠ user.id →
        (row ∈ st.userRoles.filter (fun row =>
            ¬ (row.user = user.id ∧ row.role ∈
              ((authPermissionUserSummaryRoles user).filter
                (fun r => r.1 ∉ l)).map (·.1)))
          ↔ row ∈ st.userRoles) := by
      intro row hne'
      rw [List.mem_filter]
      constructor
      · exact fun h => h.1
      · intro h
        exact ⟨h, by simp [hne']⟩
    have hstDel : (if ((authPermissionUserSummaryRoles user).filter
          (fun r => r.1 ∉ l)).length ≠ 0 then
          { st with userRoles := st.userRoles.filter (fun row =>
              ¬ (row.user = user.id ∧ row.role ∈
                ((authPermissionUserSummaryRoles user).filter
                  (fun r => r.1 ∉ l)).map (·.1))) }
        else st)
        = { st with userRoles := st.userRoles.filter (fun row =>
            ¬ (row.user = user.id ∧ row.role ∈
              ((authPermissionUserSummaryRoles user).filter
                (fun r => r.1 ∉ l)).map (·.1))) } := by
      by_cases hrem : ((authPermissionUserSummaryRoles user).filter
          (fun r => r.1 ∉ l)).length ≠ 0
      · rw [if_pos hrem]
      · rw [if_neg hrem]
        push_neg at hrem
        rw [List.length_eq_zero] at hrem
        have : st.userRoles.filter (fun row =>
            ¬ (row.user = user.id ∧ row.role ∈
              ((authPermissionUserSummaryRoles user).filter
                (fun r => r.1 ∉ l)).map (·.1))) = st.userRoles := by
          rw [hrem, List.filter_eq_self]
          intro row _
          simp
        rw [this]
    rw [hstDel] at hrun
    simp only [] at hrun
    by_cases hnewc : (l.filter (fun i =>
        ¬ (authPermissionUserSummaryRoles user).any (fun r => r.1 = i))).length ≠ 0
    · rw [if_pos hnewc] at hrun
      have hdb := filter_key_length (fun r : RoleRow => r.id) st.roles
        (l.filter (fun i =>
          ¬ (authPermissionUserSummaryRoles user).any (fun r => r.1 = i)))
        hrnodup (hlnodup.filter _)
        (fun i hi => hex i (List.mem_of_mem_filter hi))
      simp only [] at hdb
      rw [if_neg (by simp [hdb])] at hrun
      obtain ⟨extra, heq, hroles, husers⟩ := insertUserRoleRows_spec
        (st.roles.filter (fun r => r.id ∈ l.filter (fun i =>
          ¬ (authPermissionUserSummaryRoles user).any (fun r => r.1 = i))))
        (st.userRoles.filter (fun row =>
          ¬ (row.user = user.id ∧ row.role ∈
            ((authPermissionUserSummaryRoles user).filter
              (fun r => r.1 ∉ l)).map (·.1))))
        st.nextId user.id
      rw [heq] at hrun
      rw [Except.ok.injEq, Prod.mk.injEq] at hrun
      obtain ⟨hst', huser'⟩ := hrun
      subst hst'
      refine ⟨?_, ?_, ?_⟩
      · intro rid
        constructor
        · rintro ⟨row, hrow, huid, hrole⟩
          rcases List.mem_append.mp hrow with hk | hx
          · exact ((hkept rid).mp ⟨row, hk, huid, hrole⟩).2
          · have hridmem : rid ∈ extra.map (·.role) :=
              hrole ▸ List.mem_map_of_mem _ hx
            rw [hroles] at hridmem
            rcases List.mem_map.mp hridmem with ⟨r, hr, hrid⟩
            have hr' := List.mem_filter.mp hr
            have hnewmem : r.id ∈ l.filter (fun i =>
                ¬ (authPermissionUserSummaryRoles user).any (fun q => q.1 = i)) :=
              of_decide_eq_true hr'.2
            exact hrid ▸ List.mem_of_mem_filter hnewmem
        · intro hin
          by_cases hany : (authPermissionUserSummaryRoles user).any
              (fun r => r.1 = rid) = true
          · rcases List.any_eq_true.mp hany with ⟨p, hp, hp1⟩
            rw [decide_eq_true_eq] at hp1
            obtain ⟨row, hrow, huid, hrole⟩ := (hkept rid).mpr
              ⟨(hsummary rid).mp ⟨p, hp, hp1⟩, hin⟩
            exact ⟨row, List.mem_append.mpr (Or.inl hrow), huid, hrole⟩
          · obtain ⟨r, hr, hrid⟩ := hex rid hin
            have hrdb : r ∈ st.roles.filter (fun q => q.id ∈ l.filter (fun i =>
                ¬ (authPermissionUserSummaryRoles user).any (fun q2 => q2.1 = i))) := by
              refine List.mem_filter.mpr ⟨hr, ?_⟩
              rw [decide_eq_true_eq, hrid]
              exact List.mem_filter.mpr ⟨hin, decide_eq_true hany⟩
            have : rid ∈ extra.map (·.role) := by
              rw [hroles, ← hrid]
              exact List.mem_map_of_mem _ hrdb
            rcases List.mem_map.mp this with ⟨row, hrowx, hrowr⟩
            exact ⟨row, List.mem_append.mpr (Or.inr hrowx), husers row hrowx, hrowr⟩
      · intro row hrow hne'
        exact List.mem_append.mpr (Or.inl ((hkeptother row hne').mpr hrow))
      · intro row hrow hne'
        rcases List.mem_append.mp hrow with hk | hx
        · exact (hkeptother row hne').mp hk
        · exact absurd (husers row hx) hne'
    · rw [if_neg hnewc] at hrun
      rw [Except.ok.injEq, Prod.mk.injEq] at hrun
      obtain ⟨hst', huser'⟩ := hrun
      subst hst'
      refine ⟨?_, ?_, ?_⟩
      · intro rid
        constructor
        · rintro ⟨row, hrow, huid, hrole⟩
          exact ((hkept rid).mp ⟨row, hrow, huid, hrole⟩).2
        · intro hin
          push_neg at hnewc
          rw [List.length_eq_zero] at hnewc
          by_cases hany : (authPermissionUserSummaryRoles user).any
              (fun r => r.1 = rid) = true
          · rcases List.any_eq_true.mp hany with ⟨p, hp, hp1⟩
            rw [decide_eq_true_eq] at hp1
            exact (hkept rid).mpr ⟨(hsummary rid).mp ⟨p, hp, hp1⟩, hin⟩
          · exfalso
            have : rid ∈ l.filter (fun i =>
                ¬ (authPermissionUserSummaryRoles user).any (fun q => q.1 = i)) :=
              List.mem_filter.mpr ⟨hin, decide_eq_true hany⟩
            rw [hnewc] at this
            cases this
      · intro row hrow hne'
        exact (hkeptother row hne').mpr hrow
      · intro row hrow hne'
        exact (hkeptother row hne').mp hrow
  · intro l st' user' hne hlnodup hrnodup hidnodup hunodup humem hex hcoh hrun
    simp only [authPermissionUserSyncRoles, Option.isSome_some,
      Option.isSome_none, Option.isNone_some, Option.getD_some,
      Option.getD_none, Bool.false_eq_true, false_and, and_false, if_false,
      ite_true, ite_false, if_true] at hrun
    rw [if_neg (by simpa using hne)] at hrun
    have hsummary : ∀ rid : Nat,
        (∃ p ∈ authPermissionUserSummaryRoles user, p.1 = rid)
          ↔ (∃ ur ∈ user.roles, ur.role.id = rid) := by
      intro rid
      unfold authPermissionUserSummaryRoles
      constructor
      · rintro ⟨p, hp, hp1⟩
        rcases List.mem_map.mp hp with ⟨ur, hur, rfl⟩
        exact ⟨ur, hur, hp1⟩
      · rintro ⟨ur, hur, hid⟩
        exact ⟨(ur.role.id, ur.role.identifier),
          List.mem_map_of_mem _ hur, hid⟩
    have hjoinrole : ∀ row ∈ st.userRoles, row.user = user.id →
        ∃ ur ∈ user.roles, ur.role.id = row.role ∧ ur.role ∈ st.roles := by
      intro row hrow huid
      obtain ⟨ur, hur, hurid⟩ := (hcoh row.role).mpr ⟨row, hrow, huid, rfl⟩
      exact ⟨ur, hur, hurid, humem ur hur⟩
    have hpairnodup : ((authPermissionUserSummaryRoles user).map (·.1)).Nodup := by
      unfold authPermissionUserSummaryRoles
      rw [List.map_map]
      exact hunodup
    have hkept : ∀ row,
        (row ∈ st.userRoles.filter (fun row =>
            ¬ (row.user = user.id ∧ row.role ∈
              ((authPermissionUserSummaryRoles user).filter
                (fun r => r.2 ∉ l)).map (·.1))))
          ↔ (row ∈ st.userRoles ∧
            ¬ (row.user = user.id ∧ row.role ∈
              ((authPermissionUserSummaryRoles user).filter
                (fun r => r.2 ∉ l)).map (·.1))) := by
      intro row
      rw [List.mem_filter]
      constructor
      · rintro ⟨h1, h2⟩
        exact ⟨h1, of_decide_eq_true h2⟩
      · rintro ⟨h1, h2⟩
        exact ⟨h1, decide_eq_true h2⟩
    have hstDel : (if ((authPermissionUserSummaryRoles user).filter
          (fun r => r.2 ∉ l)).length ≠ 0 then
          { st with userRoles := st.userRoles.filter (fun row =>
              ¬ (row.user = user.id ∧ row.role ∈
                ((authPermissionUserSummaryRoles user).filter
                  (fun r => r.2 ∉ l)).map (·.1))) }
        else st)
        = { st with userRoles := st.userRoles.filter (fun row =>
            ¬ (row.user = user.id ∧ row.role ∈
              ((authPermissionUserSummaryRoles user).filter
                (fun r => r.2 ∉ l)).map (·.1))) } := by
      by_cases hrem : ((authPermissionUserSummaryRoles user).filter
          (fun r => r.2 ∉ l)).length ≠ 0
      · rw [if_pos hrem]
      · rw [if_neg hrem]
        push_neg at hrem
        rw [List.length_eq_zero] at hrem
        have hfe : st.userRoles.filter (fun row =>
            ¬ (row.user = user.id ∧ row.role ∈
              ((authPermissionUserSummaryRoles user).filter
                (fun r => r.2 ∉ l)).map (·.1))) = st.userRoles := by
          rw [hrem, List.filter_eq_self]
          intro row _
          simp
        rw [hfe]
    rw [hstDel] at hrun
    simp only [] at hrun
    by_cases hnewc : (l.filter (fun i =>
        ¬ (authPermissionUserSummaryRoles user).any (fun r => r.2 = i))).length ≠ 0
    · rw [if_pos hnewc] at hrun
      have hdb := filter_key_length (fun r : RoleRow => r.identifier) st.roles
        (l.filter (fun i =>
          ¬ (authPermissionUserSummaryRoles user).any (fun r => r.2 = i)))
        hidnodup (hlnodup.filter _)
        (fun i hi => hex i (List.mem_of_mem_filter hi))
      simp only [] at hdb
      rw [if_neg (by simp [hdb])] at hrun
      obtain ⟨extra, heq, hroles, husers⟩ := insertUserRoleRows_spec
        (st.roles.filter (fun r => r.identifier ∈ l.filter (fun i =>
          ¬ (authPermissionUserSummaryRoles user).any (fun r => r.2 = i))))
        (st.userRoles.filter (fun row =>
          ¬ (row.user = user.id ∧ row.role ∈
            ((authPermissionUserSummaryRoles user).filter
              (fun r => r.2 ∉ l)).map (·.1))))
        st.nextId user.id
      rw [heq] at hrun
      rw [Except.ok.injEq, Prod.mk.injEq] at hrun
      obtain ⟨hst', huser'⟩ := hrun
      subst hst'
      refine ⟨?_, ?_, ?_⟩
      · intro ident
        constructor
        · rintro ⟨row, hrow, huid, r, hr, hrid, hrident⟩
          rcases List.mem_append.mp hrow with hk | hx
          · obtain ⟨hrowmem, hnotrem⟩ := (hkept row).mp hk
            obtain ⟨ur, hur, hurid, hurmem⟩ := hjoinrole row hrowmem huid
            have hreq : ur.role = r :=
              List.inj_on_of_nodup_map hrnodup hurmem hr (hurid.trans hrid.symm)
            by_contra hnl
            refine hnotrem ⟨huid, ?_⟩
            have hpair : (ur.role.id, ur.role.identifier) ∈
                (authPermissionUserSummaryRoles user).filter
                  (fun q => q.2 ∉ l) := by
              refine List.mem_filter.mpr
                ⟨List.mem_map_of_mem _ hur, decide_eq_true ?_⟩
              rw [hreq, hrident]
              exact hnl
            have hm := List.mem_map_of_mem (fun x => x.1) hpair
            simpa [hurid] using hm
          · have hridmem : row.role ∈ extra.map (·.role) :=
              List.mem_map_of_mem _ hx
            rw [hroles] at hridmem
            rcases List.mem_map.mp hridmem with ⟨r2, hr2, hr2id⟩
            have hr2' := List.mem_filter.mp hr2
            have hr2new : r2.identifier ∈ l.filter (fun i =>
                ¬ (authPermissionUserSummaryRoles user).any (fun q => q.2 = i)) :=
              of_decide_eq_true hr2'.2
            have hreq : r2 = r :=
              List.inj_on_of_nodup_map hrnodup hr2'.1 hr (hr2id.trans hrid.symm)
            rw [← hrident, ← hreq]
            exact List.mem_of_mem_filter hr2new
        · intro hin
          by_cases hany : (authPermissionUserSummaryRoles user).any
              (fun r => r.2 = ident) = true
          · rcases List.any_eq_true.mp hany with ⟨p, hp, hp2⟩
            rw [decide_eq_true_eq] at hp2
            obtain ⟨ur, hur, hurid⟩ := (hsummary p.1).mp ⟨p, hp, rfl⟩
            obtain ⟨row, hrow, huid, hrole⟩ := (hcoh p.1).mp ⟨ur, hur, hurid⟩
            rcases List.mem_map.mp hp with ⟨ur2, hur2, hur2p⟩
            refine ⟨row, List.mem_append.mpr (Or.inl ((hkept row).mpr
              ⟨hrow, ?_⟩)), huid, ur2.role, humem ur2 hur2, ?_, ?_⟩
            · rintro ⟨-, hc⟩
              rcases List.mem_map.mp hc with ⟨q, hq, hq1⟩
              have hq' := List.mem_filter.mp hq
              have hqp : q = p := List.inj_on_of_nodup_map hpairnodup
                hq'.1 hp (hq1.trans hrole)
              have hql : ¬ q.2 ∈ l := of_decide_eq_true hq'.2
              rw [hqp, hp2] at hql
              exact hql hin
            · rw [hrole, ← hur2p]
            · rw [← hp2, ← hur2p]
          · obtain ⟨r, hr, hrident⟩ := hex ident hin
            have hrdb : r ∈ st.roles.filter (fun q => q.identifier ∈
                l.filter (fun i => ¬ (authPermissionUserSummaryRoles user).any
                  (fun q2 => q2.2 = i))) := by
              refine List.mem_filter.mpr ⟨hr, ?_⟩
              rw [decide_eq_true_eq, hrident]
              exact List.mem_filter.mpr ⟨hin, decide_eq_true hany⟩
            have hmap : r.id ∈ extra.map (·.role) := by
              rw [hroles]
              exact List.mem_map_of_mem _ hrdb
            rcases List.mem_map.mp hmap with ⟨row, hrowx, hrowr⟩
            exact ⟨row, List.mem_append.mpr (Or.inr hrowx), husers row hrowx,
              r, hr, hrowr.symm, hrident⟩
      · intro row hrow hne'
        refine List.mem_append.mpr (Or.inl ((hkept row).mpr ⟨hrow, ?_⟩))
        rintro ⟨hc, -⟩
        exact hne' hc
      · intro row hrow hne'
        rcases List.mem_append.mp hrow with hk | hx
        · exact ((hkept row).mp hk).1
        · exact absurd (husers row hx) hne'
    · rw [if_neg hnewc] at hrun
      rw [Except.ok.injEq, Prod.mk.injEq] at hrun
      obtain ⟨hst', huser'⟩ := hrun
      subst hst'
      push_neg at hnewc
      rw [List.length_eq_zero] at hnewc
      refine ⟨?_, ?_, ?_⟩
      · intro ident
        constructor
        · rintro ⟨row, hrow, huid, r, hr, hrid, hrident⟩
          obtain ⟨hrowmem, hnotrem⟩ := (hkept row).mp hrow
          obtain ⟨ur, hur, hurid, hurmem⟩ := hjoinrole row hrowmem huid
          have hreq : ur.role = r :=
            List.inj_on_of_nodup_map hrnodup hurmem hr (hurid.trans hrid.symm)
          by_contra hnl
          refine hnotrem ⟨huid, ?_⟩
          have hpair : (ur.role.id, ur.role.identifier) ∈
              (authPermissionUserSummaryRoles user).filter
                (fun q => q.2 ∉ l) := by
            refine List.mem_filter.mpr
              ⟨List.mem_map_of_mem _ hur, decide_eq_true ?_⟩
            rw [hreq, hrident]
            exact hnl
          have hm := List.mem_map_of_mem (fun x => x.1) hpair
          simpa [hurid] using hm
        · intro hin
          by_cases hany : (authPermissionUserSummaryRoles user).any
              (fun r => r.2 = ident) = true
          · rcases List.any_eq_true.mp hany with ⟨p, hp, hp2⟩
            rw [decide_eq_true_eq] at hp2
            obtain ⟨ur, hur, hurid⟩ := (hsummary p.1).mp ⟨p, hp, rfl⟩
            obtain ⟨row, hrow, huid, hrole⟩ := (hcoh p.1).mp ⟨ur, hur, hurid⟩
            rcases List.mem_map.mp hp with ⟨ur2, hur2, hur2p⟩
            refine ⟨row, (hkept row).mpr ⟨hrow, ?_⟩, huid,
              ur2.role, humem ur2 hur2, ?_, ?_⟩
            · rintro ⟨-, hc⟩
              rcases List.mem_map.mp hc with ⟨q, hq, hq1⟩
              have hq' := List.mem_filter.mp hq
              have hqp : q = p := List.inj_on_of_nodup_map hpairnodup
                hq'.1 hp (hq1.trans hrole)
              have hql : ¬ q.2 ∈ l := of_decide_eq_true hq'.2
              rw [hqp, hp2] at hql
              exact hql hin
            · rw [hrole, ← hur2p]
            · rw [← hp2, ← hur2p]
          · exfalso
            have hmem2 : ident ∈ l.filter (fun i =>
                ¬ (authPermissionUserSummaryRoles user).any
                  (fun q => q.2 = i)) :=
              List.mem_filter.mpr ⟨hin, decide_eq_true hany⟩
            rw [hnewc] at hmem2
            cases hmem2
      · intro row hrow hne'
        refine (hkept row).mpr ⟨hrow, ?_⟩
        rintro ⟨hc, -⟩
        exact hne' hc
      · intro row hrow hne'
        exact ((hkept row).mp hrow).1

/-! ## Password-based authentication (auth/password-based/events.js,
auth/password-based/controller.js, auth/index.js) -/

/-- `BCRYPT_DEFAULT_COST` (auth/init.js). -/
def BCRYPT_DEFAULT_COST : Nat := 13

/-- `authStringPrefixes.passwordVerifyToken` (auth/init.js). -/
def passwordVerifyToken : String := "auth-verify"

/-- `authStringPrefixes.passwordResetToken` (auth/init.js). -/
def passwordResetToken : String := "auth-reset"

/-- A row of the `passwordLogin` table; timestamps in UTC milliseconds. -/
structure PasswordLogin where
  id : Nat
  user : Nat
  email : String
  password : String
  verifiedAt : Option Int
  otpEnabledAt : Option Int
  otpSecret : Option String
  updatedAt : Int
deriving Repr, DecidableEq

/-- A row of the `totpSettings` table, reduced to the fields
`determineTwoStepFunction` reads. -/
structure TotpSettingsRow where
  user : Nat
  verifiedAt : Option Int
deriving Repr, DecidableEq

/-- A row of the `user` table, reduced to the fields the password flow reads. -/
structure UserRow where
  id : Nat
  lastLogin : Option Int
deriving Repr, DecidableEq

/-- The joined `QueryResultAuthUser` view produced by `queryUser` with
`userBuilder`: the user row with its password login, TOTP settings and tenant
memberships joined. -/
structure AuthUser where
  id : Nat
  lastLogin : Option Int
  passwordLogin : Option PasswordLogin
  totpSettings : Option TotpSettingsRow
  tenants : List Nat
deriving Repr, DecidableEq

/-- A row of the `passwordLoginReset` table. -/
structure PasswordLoginReset where
  id : Nat
  login : Nat
  resetToken : String
  shouldSetPassword : Bool
  expiresAt : Int
deriving Repr, DecidableEq

/-- A session-store row reduced to the `"data"->>'userId'` field the password
flow deletes by. -/
structure SessionRow where
  id : Nat
  dataUserId : Option Nat
deriving Repr, DecidableEq

/-- A row of the `passwordLoginAttempt` table. -/
structure LoginAttempt where
  passwordLogin : Nat
  createdAt : Int
deriving Repr, DecidableEq

/-- A queued job (`queueWorkerAddJob`): its name and the data fields the
password flow sets. -/
structure Job where
  name : String
  userId : Option Nat
  passwordLoginId : Option Nat
  passwordLoginResetId : Option Nat
  otp : Option String
deriving Repr, DecidableEq

/-- The database state the password-based auth events read and write. -/
structure AuthState where
  users : List UserRow
  userTenants : List (Nat × Nat)
  passwordLogins : List PasswordLogin
  totpSettings : List TotpSettingsRow
  passwordLoginResets : List PasswordLoginReset
  sessions : List SessionRow
  loginAttempts : List LoginAttempt
  featureFlags : List FeatureFlag
  jobs : List Job
  nextId : Nat
deriving Repr, DecidableEq

/-- Build the joined `QueryResultAuthUser` view for one user row. -/
def buildAuthUser (st : AuthState) (u : UserRow) : AuthUser :=
  ⟨u.id, u.lastLogin,
   st.passwordLogins.find? (fun pl => pl.user = u.id),
   st.totpSettings.find? (fun t => t.user = u.id),
   (st.userTenants.filter (fun p => p.1 = u.id)).map (·.2)⟩

/-- `queryUser` with the `viaTenants` / `viaPasswordLogin` where clause used by
login and forgot-password: the first user that is a member of the tenant and
has a password login with the given email. -/
def queryUserWhereTenantEmail (st : AuthState) (tenantId : Nat)
    (email : String) : Option AuthUser :=
  (st.users.find? (fun u =>
    (u.id, tenantId) ∈ st.userTenants ∧
    st.passwordLogins.any (fun pl => pl.user = u.id ∧ pl.email = email))).map
    (buildAuthUser st)

/-- `queryUser` with `where: { id }`: the refetch used by update-email and
register. -/
def queryUserById (st : AuthState) (id : Nat) : Option AuthUser :=
  (st.users.find? (fun u => u.id = id)).map (buildAuthUser st)

/-- The `{type, twoStepType}` object a two-step check function returns. -/
structure AuthDetermineTwoStepResult where
  type : String
  twoStepType : String
deriving Repr, DecidableEq

/-- `determineTwoStepFunction` (auth/index.js `applyAuth`): a verified TOTP
setup wins, otherwise a password login with `otpEnabledAt` set selects
`passwordBasedOtp`; `none` models the JS `undefined` fall-through. -/
def determineTwoStepFunction (user : AuthUser) : Option AuthDetermineTwoStepResult :=
  if (user.totpSettings.bind (fun t => t.verifiedAt)).isSome then
    some ⟨"checkTwoStep", "totpProvider"⟩
  else if (user.passwordLogin.bind (fun pl => pl.otpEnabledAt)).isSome then
    some ⟨"checkTwoStep", "passwordBasedOtp"⟩
  else none

/-- `authPasswordBasedShouldUserUpdatePassword` (password-based/events.js):
when the force-rotation service flag is on and the login's `updatedAt` is
older than six months, return the `{type: "passwordBasedUpdatePassword"}`
patch, else the empty patch (`none`). The six-months-ago instant is computed
from the clock by the source; it is a parameter here. -/
def authPasswordBasedShouldUserUpdatePassword (forceFlag : Bool)
    (sixMonthsAgo : Int) (user : AuthUser) : Option String :=
  if forceFlag then
    match user.passwordLogin with
    | some pl =>
      if pl.updatedAt < sixMonthsAgo then some "passwordBasedUpdatePassword"
      else none
    | none => none
  else none

/-- The session `data` object built by the login handler
(password-based/controller.js): `{type: "user", loginType: "passwordBased",
...set2FACheck, ...setUpdatePassword, userId}` with JS spread semantics, the
later spread overriding `type`. -/
structure AuthSessionData where
  type : String
  loginType : String
  twoStepType : Option String
  userId : Nat
deriving Repr, DecidableEq

/-- The login handler's `sessionStoreCreate` data for a logged-in user:
spreads `determineTwoStepFunction(user)` and then
`authPasswordBasedShouldUserUpdatePassword(user)` over the base object. -/
def loginSessionData (forceFlag : Bool) (sixMonthsAgo : Int)
    (user : AuthUser) : AuthSessionData :=
  { type := (match authPasswordBasedShouldUserUpdatePassword forceFlag
        sixMonthsAgo user, determineTwoStepFunction user with
      | some t, _ => t
      | none, some r => r.type
      | none, none => "user")
    loginType := "passwordBased"
    twoStepType := (determineTwoStepFunction user).map (·.twoStepType)
    userId := user.id }

/-- `queries.userUpdate` setting `lastLogin` for one user. -/
def userSetLastLogin (st : AuthState) (userId : Nat) (now : Int) : AuthState :=
  { st with users := st.users.map (fun u =>
      if u.id = userId then { u with lastLogin := some now } else u) }

/-- `queries.passwordLoginUpdate` persisting a generated OTP secret. -/
def passwordLoginSetOtpSecret (st : AuthState) (loginId : Nat)
    (secret : String) : AuthState :=
  { st with passwordLogins := st.passwordLogins.map (fun q =>
      if q.id = loginId then { q with otpSecret := some secret } else q) }

/-- `queueWorkerAddJob`. -/
def addJob (st : AuthState) (j : Job) : AuthState :=
  { st with jobs := st.jobs ++ [j] }

/-- The `auth.passwordBased.requestOtp` job payload enqueued by login. -/
def requestOtpJob (userId plId : Nat) (otp : String) : Job :=
  ⟨"auth.passwordBased.requestOtp", some userId, some plId, none, some otp⟩

/-- `authPasswordBasedLogin` (password-based/events.js). Environment effects
are parameters: `bcryptCompare` for `bcrypt.compare`, `totp` for
`speakeasy.totp` over a base32 secret, `generatedSecret` for
`speakeasy.generateSecret().base32`, `now` for `new Date()` in UTC ms,
`rollingBlock` for the `passwordBasedRollingLoginAttemptBlock` service flag.
Failed-attempt rows inserted on error paths vanish with the rolled-back
transaction and are not modelled on the error results. -/
def authPasswordBasedLogin (st : AuthState)
    (bcryptCompare : String → String → Bool) (totp : String → String)
    (generatedSecret : String) (now : Int) (rollingBlock : Bool)
    (tenantId : Nat) (email password : String) :
    Except AuthError (AuthState × AuthUser) :=
  match featureFlagGetDynamic st.featureFlags none
      "__FEATURE_LPC_AUTH_REDUCE_ERROR_KEY_INFO" with
  | .error e => .error e
  | .ok reduceErrorKeyInfoFlag =>
    match queryUserWhereTenantEmail st tenantId email with
    | none =>
      if reduceErrorKeyInfoFlag then
        .error (.validation "authPasswordBased.login.invalidEmailPasswordCombination")
      else
        .error (.validation "authPasswordBased.login.unknownEmail")
    | some user =>
      match user.passwordLogin with
      | none => .error (.server "Cannot read properties of undefined")
      | some pl =>
        if rollingBlock ∧ 10 ≤ (st.loginAttempts.filter (fun a =>
            a.passwordLogin = pl.id ∧ now - 300000 < a.createdAt)).length then
          .error (.validation "authPasswordBased.login.maxAttemptsExceeded")
        else if ¬ bcryptCompare password pl.password then
          .error (.validation "authPasswordBased.login.invalidEmailPasswordCombination")
        else if pl.verifiedAt.isNone then
          .error (.validation "authPasswordBased.login.emailNotVerified")
        else if pl.otpEnabledAt.isNone then
          .ok (userSetLastLogin st user.id now, { user with lastLogin := some now })
        else match pl.otpSecret with
          | none =>
            .ok (addJob
                (passwordLoginSetOtpSecret (userSetLastLogin st user.id now)
                  pl.id generatedSecret)
                (requestOtpJob user.id pl.id (totp generatedSecret)),
              { user with
                lastLogin := some now
                passwordLogin := some { pl with otpSecret := some generatedSecret } })
          | some secret =>
            .ok (addJob (userSetLastLogin st user.id now)
                (requestOtpJob user.id pl.id (totp secret)),
              { user with lastLogin := some now })

/-- `queries.passwordLoginResetInsert` with a server-generated id; returns the
new state and the inserted row's id. -/
def insertPasswordLoginReset (st : AuthState) (login : Nat) (token : String)
    (shouldSetPassword : Bool) (expiresAt : Int) : AuthState × Nat :=
  ({ st with
      passwordLoginResets := st.passwordLoginResets ++
        [⟨st.nextId, login, token, shouldSetPassword, expiresAt⟩]
      nextId := st.nextId + 1 }, st.nextId)

/-- The `auth.passwordBased.forgotPassword` job payload. -/
def forgotPasswordJob (plId resetId : Nat) : Job :=
  ⟨"auth.passwordBased.forgotPassword", none, some plId, some resetId, none⟩

/-- `authPasswordBasedForgotPassword` (password-based/events.js): find the
user by tenant and email; with no user the reduce-error-info flag decides
between silently succeeding and the `unknownEmail` validation error; with a
user insert a reset token (`auth-reset-` prefix, `shouldSetPassword: true`,
24-hour expiry) and enqueue the forgot-password job. `u` stands for the
`uuid()` call. -/
def authPasswordBasedForgotPassword (st : AuthState) (now : Int) (u : String)
    (tenantId : Nat) (email : String) : Except AuthError AuthState :=
  match featureFlagGetDynamic st.featureFlags none
      "__FEATURE_LPC_AUTH_REDUCE_ERROR_KEY_INFO" with
  | .error e => .error e
  | .ok reduceErrorKeyInfoFlag =>
    match queryUserWhereTenantEmail st tenantId email with
    | none =>
      if reduceErrorKeyInfoFlag then .ok st
      else .error (.validation "authPasswordBased.forgotPassword.unknownEmail")
    | some user =>
      match user.passwordLogin with
      | none => .error (.server "Cannot read properties of undefined")
      | some pl =>
        .ok (addJob
          (insertPasswordLoginReset st pl.id (passwordResetToken ++ "-" ++ u)
            true (now + oneUtcDayMs)).1
          (forgotPasswordJob pl.id st.nextId))

/-- `queries.passwordLoginUpdate` rewriting the email and nulling
`verifiedAt` for one login row. -/
def passwordLoginSetEmail (st : AuthState) (loginId : Nat)
    (email : String) : AuthState :=
  { st with passwordLogins := st.passwordLogins.map (fun q =>
      if q.id = loginId then { q with
        email := email
        verifiedAt := none } else q) }

/-- `queries.sessionStoreDelete` with `"data"->>'userId' = user.id`. -/
def sessionDeleteByUserId (st : AuthState) (userId : Nat) : AuthState :=
  { st with sessions :=
      st.sessions.filter (fun s => ¬ (s.dataUserId = some userId)) }

/-- The `auth.passwordBased.emailUpdated` job payload. -/
def emailUpdatedJob (plId resetId : Nat) : Job :=
  ⟨"auth.passwordBased.emailUpdated", none, some plId, some resetId, none⟩

/-- `authPasswordBasedCheckUnique` (password-based/events.js): with no
password login succeed; otherwise fail with `duplicateEmail` when any other
user shares the login's email through any of this user's tenants. The
source's sql-transaction and tenants-joined guards are not representable
here (the model always passes a list). -/
def authPasswordBasedCheckUnique (st : AuthState) (user : AuthUser) :
    Except AuthError Unit :=
  match user.passwordLogin with
  | none => .ok ()
  | some pl =>
    if 0 < ((user.tenants.map (fun t =>
        st.users.filter (fun other =>
          other.id ≠ user.id ∧
          st.passwordLogins.any (fun q => q.user = other.id ∧ q.email = pl.email) ∧
          (other.id, t) ∈ st.userTenants))).join).length then
      .error (.validation "authPasswordBased.checkUnique.duplicateEmail")
    else .ok ()

/-- `authPasswordBasedUpdateEmail` (password-based/events.js): rewrite the
login's email and null `verifiedAt`, insert a verify token (`auth-verify-`
prefix, `shouldSetPassword: false`, 24-hour expiry), delete every session
whose `data.userId` is this user, enqueue the email-updated job, then
refetch the user and re-run the uniqueness check. `u` stands for `uuid()`. -/
def authPasswordBasedUpdateEmail (st : AuthState) (now : Int) (u : String)
    (user : AuthUser) (newEmail : String) : Except AuthError AuthState :=
  match user.passwordLogin with
  | none => .error (.server "Cannot read properties of undefined")
  | some pl =>
    let st1 := passwordLoginSetEmail st pl.id newEmail
    let st2 := (insertPasswordLoginReset st1 pl.id
      (passwordVerifyToken ++ "-" ++ u) false (now + oneUtcDayMs)).1
    let st3 := sessionDeleteByUserId st2 user.id
    let st4 := addJob st3 (emailUpdatedJob pl.id st1.nextId)
    match queryUserById st4 user.id with
    | none => .error (.server "Cannot read properties of undefined")
    | some refetched =>
      match authPasswordBasedCheckUnique st4 refetched with
      | .error e => .error e
      | .ok _ => .ok st4

/-- `queries.passwordLoginInsert` with a server-generated id; a fresh row has
no OTP secret and `updatedAt` set by the database to the current time. -/
def insertPasswordLogin (st : AuthState) (userId : Nat) (email password : String)
    (verifiedAt otpEnabledAt : Option Int) (now : Int) : AuthState × Nat :=
  ({ st with
      passwordLogins := st.passwordLogins ++
        [⟨st.nextId, userId, email, password, verifiedAt, otpEnabledAt, none, now⟩]
      nextId := st.nextId + 1 }, st.nextId)

/-- The `auth.passwordBased.userRegistered` job payload. -/
def userRegisteredJob (plId resetId : Nat) : Job :=
  ⟨"auth.passwordBased.userRegistered", none, some plId, some resetId, none⟩

/-- `AuthPasswordBasedRegisterBody`: optional fields model the JS
`undefined`. -/
structure AuthPasswordBasedRegisterBody where
  email : Option String
  password : Option String
  randomPassword : Option Bool
  verifiedAt : Option Int
  otpEnabledAt : Option Int
deriving Repr, DecidableEq

/-- `authPasswordBasedRegister` (password-based/events.js). The module-level
`_randomPasswordHash` cache is threaded explicitly: it comes in as a
parameter and the updated cache is part of the result. `bcryptHash` stands
for `bcrypt.hash`, `u1` for the `uuid()` hashed into the placeholder
password, `u2` for the `uuid()` in the reset token, `inTransaction` for the
`sql.savepoint` guard. -/
def authPasswordBasedRegister (st : AuthState)
    (randomPasswordHash : Option String) (bcryptHash : String → Nat → String)
    (u1 u2 : String) (now : Int) (inTransaction : Bool) (dbUser : Option Nat)
    (body : AuthPasswordBasedRegisterBody) :
    Except AuthError (AuthState × Option String × AuthUser) :=
  match body.email with
  | none => .error (.validation "authPasswordBased.register.invalidEmail")
  | some email =>
    if body.password.isNone ∧ body.randomPassword ≠ some true then
      .error (.validation "authPasswordBased.register.invalidPassword")
    else if ¬ inTransaction then
      .error (.server "Function should be called inside a sql transaction.")
    else match dbUser with
    | none => .error (.validation "authPasswordBased.register.missingUser")
    | some userId =>
      let cache := if body.randomPassword = some true ∧ randomPasswordHash.isNone
        then some (bcryptHash u1 6) else randomPasswordHash
      let password := if body.randomPassword = some true
        then cache.getD ""
        else bcryptHash (body.password.getD "") BCRYPT_DEFAULT_COST
      let verifiedAt := match body.verifiedAt with
        | some v => some v
        | none => if body.randomPassword = some true then some now else none
      let stPl := insertPasswordLogin st userId email password verifiedAt
        body.otpEnabledAt now
      let token := if body.randomPassword = some true
        then passwordResetToken ++ "-" ++ u2
        else passwordVerifyToken ++ "-" ++ u2
      let stReset := insertPasswordLoginReset stPl.1 stPl.2 token
        (body.randomPassword = some true) (now + oneUtcDayMs)
      let stJob := addJob stReset.1 (userRegisteredJob stPl.2 stReset.2)
      match queryUserById stJob userId with
      | none => .error (.server "Cannot read properties of undefined")
      | some user =>
        match authPasswordBasedCheckUnique stJob user with
        | .error e => .error e
        | .ok _ => .ok (stJob, cache, user)

/-! ## Session store refresh protocol (spec §4.3; the implementation,
`sessionStoreRefreshTokens`, lives in the external @compas/store package) -/

/-- Modelled from the spec: a session record, reduced to the soft-delete
`revokedAt` marker the refresh protocol reads. -/
structure StoreSession where
  id : Nat
  revokedAt : Option Int
deriving Repr, DecidableEq

/-- Modelled from the spec: a session-token row `(session, expires-at,
optional refresh-token link, revoked-at)`; access tokens carry a link to the
refresh-token row they were issued with. -/
structure StoreToken where
  id : Nat
  session : Nat
  expiresAt : Int
  refreshToken : Option Nat
  revokedAt : Option Int
deriving Repr, DecidableEq

/-- Modelled from the spec: the session-store tables. -/
structure SessionStoreState where
  sessions : List StoreSession
  tokens : List StoreToken
  nextId : Nat
deriving Repr, DecidableEq

/-- Modelled from the spec: "revoke the entire chain for that session" —
set `revokedAt` on every not-yet-revoked token row of the session. -/
def revokeSessionChain (st : SessionStoreState) (sessionId : Nat)
    (now : Int) : SessionStoreState :=
  { st with tokens := st.tokens.map (fun t =>
      if t.session = sessionId ∧ t.revokedAt = none
      then { t with revokedAt := some now } else t) }

/-- Modelled from the spec: the §4.3 refresh protocol of
`sessionStoreRefreshTokens`. `tokenId` is the token-row id carried in the
presented refresh token; `none` models a signature-verification failure.
Errors are unauthorized (all non-500 session errors surface at HTTP 401);
the state is returned alongside so the replay rule's chain revocation
persists. On success the result is the new `(access, refresh)` row ids. -/
def sessionStoreRefreshTokens (st : SessionStoreState) (now : Int)
    (accessMaxAge refreshMaxAge : Int) (tokenId : Option Nat) :
    SessionStoreState × Except AuthError (Nat × Nat) :=
  match tokenId with
  | none =>
    (st, .error (.unauthorized "sessionStore.verifyAndDecodeJWT.invalidToken"))
  | some tid =>
    match st.tokens.find? (fun t => t.id = tid) with
    | none => (st, .error (.unauthorized "sessionStore.refreshTokens.invalidSession"))
    | some row =>
      if row.expiresAt ≤ now then
        (st, .error (.unauthorized "sessionStore.refreshTokens.expiredToken"))
      else
        match st.sessions.find? (fun s => s.id = row.session) with
        | none =>
          (st, .error (.unauthorized "sessionStore.refreshTokens.invalidSession"))
        | some sess =>
          if sess.revokedAt.isSome then
            (st, .error (.unauthorized "sessionStore.refreshTokens.revokedToken"))
          else if row.revokedAt.isSome then
            (revokeSessionChain st row.session now,
             .error (.unauthorized "sessionStore.refreshTokens.revokedToken"))
          else
            ({ st with
                tokens := (st.tokens.map (fun t =>
                    if t.id = tid then { t with revokedAt := some now } else t)) ++
                  [⟨st.nextId, row.session, now + refreshMaxAge, none, none⟩,
                   ⟨st.nextId + 1, row.session, now + accessMaxAge, some st.nextId, none⟩]
                nextId := st.nextId + 2 },
             .ok (st.nextId + 1, st.nextId))

/-- Modelled from the spec: token validation on every request — the row must
exist, be non-revoked, non-expired, and its session non-revoked; success
returns the session id. -/
def sessionStoreGet (st : SessionStoreState) (now : Int)
    (tokenId : Option Nat) : Except AuthError Nat :=
  match tokenId with
  | none => .error (.unauthorized "sessionStore.verifyAndDecodeJWT.invalidToken")
  | some tid =>
    match st.tokens.find? (fun t => t.id = tid) with
    | none => .error (.unauthorized "sessionStore.get.invalidSession")
    | some row =>
      if row.revokedAt.isSome then
        .error (.unauthorized "sessionStore.get.revokedToken")
      else if row.expiresAt ≤ now then
        .error (.unauthorized "sessionStore.get.expiredToken")
      else
        match st.sessions.find? (fun s => s.id = row.session) with
        | none => .error (.unauthorized "sessionStore.get.invalidSession")
        | some sess =>
          if sess.revokedAt.isSome then
            .error (.unauthorized "sessionStore.get.revokedToken")
          else .ok sess.id

theorem c8_user_sync_roles_witness :
    (authPermissionUserSyncRoles
        ⟨[], [⟨1, "admin", none⟩, ⟨2, "editor", none⟩], ∅, [⟨5, 7, 1⟩], 10⟩
        (some ⟨7, [⟨5, ⟨1, "admin", none⟩⟩]⟩) (some [2]) (some ["editor"])
      = .error (.validation "authPermission.userSyncRoles.invalidArgument")) ∧
    (authPermissionUserSyncRoles
        ⟨[], [⟨1, "admin", none⟩, ⟨2, "editor", none⟩], ∅, [⟨5, 7, 1⟩], 10⟩
        (some ⟨7, [⟨5, ⟨1, "admin", none⟩⟩]⟩) none none
      = .ok (⟨[], [⟨1, "admin", none⟩, ⟨2, "editor", none⟩], ∅, [], 10⟩,
             ⟨7, []⟩)) ∧
    (∃ row ∈ ([⟨10, 7, 2⟩] : List UserRoleRow),
      row.user = 7 ∧ row.role = 2) ∧
    (∃ row ∈ ([⟨10, 7, 2⟩] : List UserRoleRow), row.user = 7 ∧
      ∃ r ∈ ([⟨1, "admin", none⟩, ⟨2, "editor", none⟩] : List RoleRow),
        r.id = row.role ∧ r.identifier = "editor") := by
  have hcoh0 : ∀ rid : Nat,
      (∃ ur ∈ ([⟨5, ⟨1, "admin", none⟩⟩] : List JoinedUserRole),
        ur.role.id = rid)
        ↔ (∃ row ∈ ([⟨5, 7, 1⟩] : List UserRoleRow),
          row.user = 7 ∧ row.role = rid) := by
    intro rid
    simp
  refine ⟨?_, ?_, ?_, ?_⟩
  · exact (c8_user_sync_roles
      ⟨[], [⟨1, "admin", none⟩, ⟨2, "editor", none⟩], ∅, [⟨5, 7, 1⟩], 10⟩
      ⟨7, [⟨5, ⟨1, "admin", none⟩⟩]⟩).1 [2] ["editor"]
  · exact ((c8_user_sync_roles
      ⟨[], [⟨1, "admin", none⟩, ⟨2, "editor", none⟩], ∅, [⟨5, 7, 1⟩], 10⟩
      ⟨7, [⟨5, ⟨1, "admin", none⟩⟩]⟩).2.1).trans rfl
  · exact (((c8_user_sync_roles
      ⟨[], [⟨1, "admin", none⟩, ⟨2, "editor", none⟩], ∅, [⟨5, 7, 1⟩], 10⟩
      ⟨7, [⟨5, ⟨1, "admin", none⟩⟩]⟩).2.2.1 [2]
      ⟨[], [⟨1, "admin", none⟩, ⟨2, "editor", none⟩], ∅, [⟨10, 7, 2⟩], 11⟩
      ⟨7, [⟨10, ⟨2, "editor", none⟩⟩]⟩
      (by decide) (by decide) (by decide) (by decide) (by decide)
      hcoh0 rfl).1 2).mpr (by decide)
  · exact (((c8_user_sync_roles
      ⟨[], [⟨1, "admin", none⟩, ⟨2, "editor", none⟩], ∅, [⟨5, 7, 1⟩], 10⟩
      ⟨7, [⟨5, ⟨1, "admin", none⟩⟩]⟩).2.2.2 ["editor"]
      ⟨[], [⟨1, "admin", none⟩, ⟨2, "editor", none⟩], ∅, [⟨10, 7, 2⟩], 11⟩
      ⟨7, [⟨10, ⟨2, "editor", none⟩⟩]⟩
      (by decide) (by decide) (by decide) (by decide) (by decide)
      (by decide) (by decide) hcoh0 rfl).1 "editor").mpr (by decide)

/-- Claim C2, counterexample — a user whose `otpEnabledAt` is set but who also
has verified `totpSettings`: the password login itself succeeds and the
requestOtp job is enqueued, but the session the login controller creates has
`twoStepType` `"totpProvider"`, not `"passwordBasedOtp"`, because
`determineTwoStepFunction` gives verified TOTP settings precedence. -/
theorem c2_totp_precedence_counterexample :
    authPasswordBasedLogin
        ⟨[⟨1, none⟩], [(1, 100)],
         [⟨2, 1, "a@b.c", "hash", some 0, some 0, some "SECRET", 0⟩],
         [⟨1, some 0⟩], [], [], [],
         [⟨"__FEATURE_LPC_AUTH_REDUCE_ERROR_KEY_INFO", false, []⟩], [], 3⟩
        (fun _ _ => true) (fun s => "otp-" ++ s) "GEN" 1000 false 100
        "a@b.c" "pw"
      = .ok
        (⟨[⟨1, some 1000⟩], [(1, 100)],
          [⟨2, 1, "a@b.c", "hash", some 0, some 0, some "SECRET", 0⟩],
          [⟨1, some 0⟩], [], [], [],
          [⟨"__FEATURE_LPC_AUTH_REDUCE_ERROR_KEY_INFO", false, []⟩],
          [⟨"auth.passwordBased.requestOtp", some 1, some 2, none,
            some "otp-SECRET"⟩], 3⟩,
         ⟨1, some 1000,
          some ⟨2, 1, "a@b.c", "hash", some 0, some 0, some "SECRET", 0⟩,
          some ⟨1, some 0⟩, [100]⟩) ∧
    loginSessionData false 0
        ⟨1, some 1000,
         some ⟨2, 1, "a@b.c", "hash", some 0, some 0, some "SECRET", 0⟩,
         some ⟨1, some 0⟩, [100]⟩
      = ⟨"checkTwoStep", "passwordBased", some "totpProvider", 1⟩ ∧
    (some "totpProvider" : Option String) ≠ some "passwordBasedOtp" :=
  ⟨rfl, rfl, by decide⟩

/-- Claim C2 (amended) — for a user whose password login has `otpEnabledAt`
set, whose TOTP settings are absent or unverified, and to whom forced
password rotation does not apply, a login with correct, verified credentials
succeeds; the controller's new session data is
`{type: "checkTwoStep", loginType: "passwordBased",
twoStepType: "passwordBasedOtp", userId}`; and an
`auth.passwordBased.requestOtp` job is enqueued carrying a TOTP computed
from the stored OTP secret, a fresh secret being generated and persisted on
the login row when none is stored. -/
theorem c2_otp_login (st : AuthState) (bcryptCompare : String → String → Bool)
    (totp : String → String) (generatedSecret : String) (now : Int)
    (rollingBlock : Bool) (tenantId : Nat) (email password : String)
    (user : AuthUser) (pl : PasswordLogin) (flagVal : Bool)
    (forceFlag : Bool) (sixMonthsAgo : Int)
    (hflag : featureFlagGetDynamic st.featureFlags none
      "__FEATURE_LPC_AUTH_REDUCE_ERROR_KEY_INFO" = .ok flagVal)
    (hquery : queryUserWhereTenantEmail st tenantId email = some user)
    (hpl : user.passwordLogin = some pl)
    (hotp : pl.otpEnabledAt.isSome)
    (htotp : user.totpSettings.bind (fun t => t.verifiedAt) = none)
    (hblock : ¬ (rollingBlock = true ∧ 10 ≤ (st.loginAttempts.filter (fun a =>
      a.passwordLogin = pl.id ∧ now - 300000 < a.createdAt)).length))
    (hpw : bcryptCompare password pl.password = true)
    (hver : pl.verifiedAt.isSome)
    (hforce : forceFlag = false ∨ ¬ pl.updatedAt < sixMonthsAgo) :
    ∃ st' user' secret,
      authPasswordBasedLogin st bcryptCompare totp generatedSecret now
        rollingBlock tenantId email password = .ok (st', user') ∧
      loginSessionData forceFlag sixMonthsAgo user'
        = ⟨"checkTwoStep", "passwordBased", some "passwordBasedOtp", user.id⟩ ∧
      (pl.otpSecret = some secret ∨
        (pl.otpSecret = none ∧ secret = generatedSecret ∧
          st'.passwordLogins = st.passwordLogins.map (fun q =>
            if q.id = pl.id then { q with otpSecret := some generatedSecret }
            else q))) ∧
      st'.jobs = st.jobs ++ [requestOtpJob user.id pl.id (totp secret)] := by
  obtain ⟨vv, hvv⟩ := Option.isSome_iff_exists.mp hver
  obtain ⟨oo, hoo⟩ := Option.isSome_iff_exists.mp hotp
  have hupd : ∀ plx : PasswordLogin, plx.updatedAt = pl.updatedAt →
      ∀ userx : AuthUser, userx.passwordLogin = some plx →
      authPasswordBasedShouldUserUpdatePassword forceFlag sixMonthsAgo userx
        = none := by
    intro plx hplx userx huserx
    rcases hforce with rfl | h
    · rfl
    · unfold authPasswordBasedShouldUserUpdatePassword
      rw [huserx]
      have h' : ¬ plx.updatedAt < sixMonthsAgo := by
        rw [hplx]
        exact h
      by_cases hf : forceFlag = true
      · rw [if_pos hf]
        show (if plx.updatedAt < sixMonthsAgo
          then some "passwordBasedUpdatePassword" else none) = none
        rw [if_neg h']
      · rw [if_neg hf]
  cases hsec : pl.otpSecret with
  | none =>
    refine ⟨addJob (passwordLoginSetOtpSecret (userSetLastLogin st user.id now)
          pl.id generatedSecret)
        (requestOtpJob user.id pl.id (totp generatedSecret)),
      { user with
        lastLogin := some now
        passwordLogin := some { pl with otpSecret := some generatedSecret } },
      generatedSecret, ?_, ?_, ?_, ?_⟩
    · simp only [authPasswordBasedLogin, hflag, hquery, hpl]
      rw [if_neg hblock]
      rw [if_neg (by simp [hpw])]
      rw [if_neg (by simp [hvv])]
      rw [if_neg (by simp [hoo])]
      rw [hsec]
    · have hdet : determineTwoStepFunction
          { user with
            lastLogin := some now
            passwordLogin := some { pl with otpSecret := some generatedSecret } }
          = some ⟨"checkTwoStep", "passwordBasedOtp"⟩ := by
        unfold determineTwoStepFunction
        rw [if_neg (by simp [htotp])]
        rw [if_pos (by simp [hoo])]
      have hupd' := hupd { pl with otpSecret := some generatedSecret } rfl
        { user with
          lastLogin := some now
          passwordLogin := some { pl with otpSecret := some generatedSecret } }
        rfl
      simp [loginSessionData, hdet, hupd']
    · exact Or.inr ⟨rfl, rfl, rfl⟩
    · rfl
  | some secret =>
    refine ⟨addJob (userSetLastLogin st user.id now)
        (requestOtpJob user.id pl.id (totp secret)),
      { user with lastLogin := some now }, secret, ?_, ?_, Or.inl rfl, ?_⟩
    · simp only [authPasswordBasedLogin, hflag, hquery, hpl]
      rw [if_neg hblock]
      rw [if_neg (by simp [hpw])]
      rw [if_neg (by simp [hvv])]
      rw [if_neg (by simp [hoo])]
      rw [hsec]
    · have hdet : determineTwoStepFunction { user with lastLogin := some now }
          = some ⟨"checkTwoStep", "passwordBasedOtp"⟩ := by
        unfold determineTwoStepFunction
        rw [if_neg (by simp [htotp])]
        rw [if_pos (by simp [hpl, hoo])]
      have hupd' := hupd pl rfl { user with lastLogin := some now } hpl
      simp [loginSessionData, hdet, hupd']
    · rfl

/-- Claim C2, witness: a concrete user with `otpEnabledAt` set, no TOTP
settings and no stored OTP secret. -/
theorem c2_otp_login_witness :
    ∃ st' user' secret,
      authPasswordBasedLogin
          ⟨[⟨1, none⟩], [(1, 100)],
           [⟨2, 1, "a@b.c", "hash", some 0, some 7, none, 0⟩],
           [], [], [], [],
           [⟨"__FEATURE_LPC_AUTH_REDUCE_ERROR_KEY_INFO", false, []⟩], [], 3⟩
          (fun _ _ => true) (fun s => "otp-" ++ s) "GEN" 1000 false 100
          "a@b.c" "pw" = .ok (st', user') ∧
      loginSessionData false 0 user'
        = ⟨"checkTwoStep", "passwordBased", some "passwordBasedOtp", 1⟩ ∧
      ((⟨2, 1, "a@b.c", "hash", some 0, some 7, none, 0⟩ :
          PasswordLogin).otpSecret = some secret ∨
        ((⟨2, 1, "a@b.c", "hash", some 0, some 7, none, 0⟩ :
            PasswordLogin).otpSecret = none ∧ secret = "GEN" ∧
          st'.passwordLogins =
            [⟨2, 1, "a@b.c", "hash", some 0, some 7, none, 0⟩].map (fun q =>
              if q.id = 2 then { q with otpSecret := some "GEN" } else q))) ∧
      st'.jobs = [] ++ [requestOtpJob 1 2 ((fun s => "otp-" ++ s) secret)] :=
  c2_otp_login
    ⟨[⟨1, none⟩], [(1, 100)],
     [⟨2, 1, "a@b.c", "hash", some 0, some 7, none, 0⟩],
     [], [], [], [],
     [⟨"__FEATURE_LPC_AUTH_REDUCE_ERROR_KEY_INFO", false, []⟩], [], 3⟩
    (fun _ _ => true) (fun s => "otp-" ++ s) "GEN" 1000 false 100
    "a@b.c" "pw"
    ⟨1, none, some ⟨2, 1, "a@b.c", "hash", some 0, some 7, none, 0⟩,
     none, [100]⟩
    ⟨2, 1, "a@b.c", "hash", some 0, some 7, none, 0⟩
    false false 0 rfl rfl rfl (by decide) rfl (by decide) rfl (by decide)
    (Or.inl rfl)

/-- Claim C5 — forgot-password: with the reduce-error-info flag on, an
unknown email succeeds observably while changing nothing (so no reset token
is inserted and no job enqueued); with the flag off the same input fails
with the 400 validation error `unknownEmail`; for a known email a reset
token with `shouldSetPassword: true` expiring in 24 hours is inserted and an
`auth.passwordBased.forgotPassword` job is enqueued. -/
theorem c5_forgot_password (st : AuthState) (now : Int) (u : String)
    (tenantId : Nat) (email : String) :
    (featureFlagGetDynamic st.featureFlags none
        "__FEATURE_LPC_AUTH_REDUCE_ERROR_KEY_INFO" = .ok true →
      queryUserWhereTenantEmail st tenantId email = none →
      authPasswordBasedForgotPassword st now u tenantId email = .ok st) ∧
    (featureFlagGetDynamic st.featureFlags none
        "__FEATURE_LPC_AUTH_REDUCE_ERROR_KEY_INFO" = .ok false →
      queryUserWhereTenantEmail st tenantId email = none →
      authPasswordBasedForgotPassword st now u tenantId email
        = .error (.validation "authPasswordBased.forgotPassword.unknownEmail") ∧
      (AuthError.validation
        "authPasswordBased.forgotPassword.unknownEmail").status = 400) ∧
    (∀ (flagVal : Bool) (user : AuthUser) (pl : PasswordLogin),
      featureFlagGetDynamic st.featureFlags none
        "__FEATURE_LPC_AUTH_REDUCE_ERROR_KEY_INFO" = .ok flagVal →
      queryUserWhereTenantEmail st tenantId email = some user →
      user.passwordLogin = some pl →
      ∃ st', authPasswordBasedForgotPassword st now u tenantId email
          = .ok st' ∧
        st'.passwordLoginResets = st.passwordLoginResets ++
          [⟨st.nextId, pl.id, passwordResetToken ++ "-" ++ u, true,
            now + oneUtcDayMs⟩] ∧
        st'.jobs = st.jobs ++ [forgotPasswordJob pl.id st.nextId] ∧
        st'.passwordLogins = st.passwordLogins ∧
        st'.sessions = st.sessions) := by
  refine ⟨?_, ?_, ?_⟩
  · intro h1 h2
    simp [authPasswordBasedForgotPassword, h1, h2]
  · intro h1 h2
    refine ⟨?_, rfl⟩
    simp [authPasswordBasedForgotPassword, h1, h2]
  · intro flagVal user pl h1 h2 h3
    refine ⟨addJob
      (insertPasswordLoginReset st pl.id (passwordResetToken ++ "-" ++ u)
        true (now + oneUtcDayMs)).1
      (forgotPasswordJob pl.id st.nextId), ?_, rfl, rfl, rfl, rfl⟩
    simp only [authPasswordBasedForgotPassword, h1, h2, h3]

/-- Claim C5, witness: the three behaviors at concrete states — flag on and
flag off with an unknown email, and a known email inserting the reset token
and job. -/
theorem c5_forgot_password_witness :
    (authPasswordBasedForgotPassword
        ⟨[], [], [], [], [], [], [],
         [⟨"__FEATURE_LPC_AUTH_REDUCE_ERROR_KEY_INFO", true, []⟩], [], 5⟩
        1000 "U" 100 "a@b.c"
      = .ok ⟨[], [], [], [], [], [], [],
         [⟨"__FEATURE_LPC_AUTH_REDUCE_ERROR_KEY_INFO", true, []⟩], [], 5⟩) ∧
    (authPasswordBasedForgotPassword
        ⟨[], [], [], [], [], [], [],
         [⟨"__FEATURE_LPC_AUTH_REDUCE_ERROR_KEY_INFO", false, []⟩], [], 5⟩
        1000 "U" 100 "a@b.c"
      = .error (.validation "authPasswordBased.forgotPassword.unknownEmail")) ∧
    (∃ st', authPasswordBasedForgotPassword
        ⟨[⟨1, none⟩], [(1, 100)],
         [⟨3, 1, "a@b.c", "h", some 0, none, none, 0⟩], [], [], [], [],
         [⟨"__FEATURE_LPC_AUTH_REDUCE_ERROR_KEY_INFO", false, []⟩], [], 5⟩
        1000 "U" 100 "a@b.c" = .ok st' ∧
      st'.passwordLoginResets =
        [] ++ [⟨5, 3, passwordResetToken ++ "-" ++ "U", true,
          1000 + oneUtcDayMs⟩] ∧
      st'.jobs = [] ++ [forgotPasswordJob 3 5] ∧
      st'.passwordLogins = [⟨3, 1, "a@b.c", "h", some 0, none, none, 0⟩] ∧
      st'.sessions = []) := by
  refine ⟨?_, ?_, ?_⟩
  · exact (c5_forgot_password
      ⟨[], [], [], [], [], [], [],
       [⟨"__FEATURE_LPC_AUTH_REDUCE_ERROR_KEY_INFO", true, []⟩], [], 5⟩
      1000 "U" 100 "a@b.c").1 rfl rfl
  · exact ((c5_forgot_password
      ⟨[], [], [], [], [], [], [],
       [⟨"__FEATURE_LPC_AUTH_REDUCE_ERROR_KEY_INFO", false, []⟩], [], 5⟩
      1000 "U" 100 "a@b.c").2.1 rfl rfl).1
  · exact (c5_forgot_password
      ⟨[⟨1, none⟩], [(1, 100)],
       [⟨3, 1, "a@b.c", "h", some 0, none, none, 0⟩], [], [], [], [],
       [⟨"__FEATURE_LPC_AUTH_REDUCE_ERROR_KEY_INFO", false, []⟩], [], 5⟩
      1000 "U" 100 "a@b.c").2.2 false
      ⟨1, none, some ⟨3, 1, "a@b.c", "h", some 0, none, none, 0⟩, none, [100]⟩
      ⟨3, 1, "a@b.c", "h", some 0, none, none, 0⟩ rfl rfl rfl

/-- Claim C6 — update-email rewrites the login's email and nulls
`verifiedAt` (all other login rows untouched), inserts a verify token with
`shouldSetPassword: false` and 24-hour expiry, deletes exactly the sessions
whose `data.userId` is this user, enqueues `auth.passwordBased.emailUpdated`,
and re-runs the duplicate-email uniqueness check on the refetched user. -/
theorem c6_update_email (st : AuthState) (now : Int) (u : String)
    (user : AuthUser) (pl : PasswordLogin) (newEmail : String)
    (st' : AuthState)
    (hpl : user.passwordLogin = some pl)
    (hrun : authPasswordBasedUpdateEmail st now u user newEmail = .ok st') :
    st'.passwordLogins = st.passwordLogins.map (fun q =>
      if q.id = pl.id then { q with email := newEmail, verifiedAt := none }
      else q) ∧
    st'.passwordLoginResets = st.passwordLoginResets ++
      [⟨st.nextId, pl.id, passwordVerifyToken ++ "-" ++ u, false,
        now + oneUtcDayMs⟩] ∧
    st'.sessions = st.sessions.filter
      (fun s => ¬ (s.dataUserId = some user.id)) ∧
    (∀ s ∈ st'.sessions, ¬ s.dataUserId = some user.id) ∧
    (∀ s ∈ st.sessions, ¬ s.dataUserId = some user.id → s ∈ st'.sessions) ∧
    st'.jobs = st.jobs ++ [emailUpdatedJob pl.id st.nextId] ∧
    (∃ refetched, queryUserById st' user.id = some refetched ∧
      authPasswordBasedCheckUnique st' refetched = .ok ()) := by
  simp only [authPasswordBasedUpdateEmail, hpl] at hrun
  split at hrun
  · exact absurd hrun (by simp)
  case _ refetched hq =>
    split at hrun
    case _ e hcu => exact absurd hrun (by simp)
    case _ v hcu =>
      rw [Except.ok.injEq] at hrun
      subst hrun
      refine ⟨rfl, rfl, rfl, ?_, ?_, rfl, refetched, hq, ?_⟩
      · intro s hs
        exact of_decide_eq_true (List.mem_filter.mp hs).2
      · intro s hs hne
        exact List.mem_filter.mpr ⟨hs, decide_eq_true hne⟩
      · cases v
        exact hcu

/-- Claim C6, witness: a concrete two-user state — the target user's login is
rewritten and unverified, their session is deleted while the other user's
session survives, and the verify token, job and passing uniqueness re-check
are all observable. -/
theorem c6_update_email_witness :
    (⟨[⟨1, none⟩, ⟨2, none⟩], [(1, 100), (2, 100)],
      [⟨3, 1, "n@e.w", "h", none, none, none, 0⟩,
       ⟨4, 2, "x@y.z", "h2", some 0, none, none, 0⟩],
      [], [⟨60, 3, "auth-verify-U", false, 86401000⟩],
      [⟨51, some 2⟩], [], [],
      [⟨"auth.passwordBased.emailUpdated", none, some 3, some 60, none⟩],
      61⟩ : AuthState).passwordLogins =
      [⟨3, 1, "a@b.c", "h", some 0, none, none, 0⟩,
       ⟨4, 2, "x@y.z", "h2", some 0, none, none, 0⟩].map (fun q =>
        if q.id = 3 then { q with email := "n@e.w", verifiedAt := none }
        else q) ∧
    (⟨[⟨1, none⟩, ⟨2, none⟩], [(1, 100), (2, 100)],
      [⟨3, 1, "n@e.w", "h", none, none, none, 0⟩,
       ⟨4, 2, "x@y.z", "h2", some 0, none, none, 0⟩],
      [], [⟨60, 3, "auth-verify-U", false, 86401000⟩],
      [⟨51, some 2⟩], [], [],
      [⟨"auth.passwordBased.emailUpdated", none, some 3, some 60, none⟩],
      61⟩ : AuthState).passwordLoginResets =
      [] ++ [⟨60, 3, passwordVerifyToken ++ "-" ++ "U", false,
        1000 + oneUtcDayMs⟩] ∧
    (⟨[⟨1, none⟩, ⟨2, none⟩], [(1, 100), (2, 100)],
      [⟨3, 1, "n@e.w", "h", none, none, none, 0⟩,
       ⟨4, 2, "x@y.z", "h2", some 0, none, none, 0⟩],
      [], [⟨60, 3, "auth-verify-U", false, 86401000⟩],
      [⟨51, some 2⟩], [], [],
      [⟨"auth.passwordBased.emailUpdated", none, some 3, some 60, none⟩],
      61⟩ : AuthState).sessions =
      [⟨50, some 1⟩, ⟨51, some 2⟩].filter
        (fun s => ¬ (s.dataUserId = some 1)) ∧
    (∀ s ∈ (⟨[⟨1, none⟩, ⟨2, none⟩], [(1, 100), (2, 100)],
      [⟨3, 1, "n@e.w", "h", none, none, none, 0⟩,
       ⟨4, 2, "x@y.z", "h2", some 0, none, none, 0⟩],
      [], [⟨60, 3, "auth-verify-U", false, 86401000⟩],
      [⟨51, some 2⟩], [], [],
      [⟨"auth.passwordBased.emailUpdated", none, some 3, some 60, none⟩],
      61⟩ : AuthState).sessions, ¬ s.dataUserId = some 1) ∧
    (∀ s ∈ ([⟨50, some 1⟩, ⟨51, some 2⟩] : List SessionRow),
      ¬ s.dataUserId = some 1 →
      s ∈ (⟨[⟨1, none⟩, ⟨2, none⟩], [(1, 100), (2, 100)],
        [⟨3, 1, "n@e.w", "h", none, none, none, 0⟩,
         ⟨4, 2, "x@y.z", "h2", some 0, none, none, 0⟩],
        [], [⟨60, 3, "auth-verify-U", false, 86401000⟩],
        [⟨51, some 2⟩], [], [],
        [⟨"auth.passwordBased.emailUpdated", none, some 3, some 60, none⟩],
        61⟩ : AuthState).sessions) ∧
    (⟨[⟨1, none⟩, ⟨2, none⟩], [(1, 100), (2, 100)],
      [⟨3, 1, "n@e.w", "h", none, none, none, 0⟩,
       ⟨4, 2, "x@y.z", "h2", some 0, none, none, 0⟩],
      [], [⟨60, 3, "auth-verify-U", false, 86401000⟩],
      [⟨51, some 2⟩], [], [],
      [⟨"auth.passwordBased.emailUpdated", none, some 3, some 60, none⟩],
      61⟩ : AuthState).jobs =
      [] ++ [emailUpdatedJob 3 60] ∧
    (∃ refetched, queryUserById
        ⟨[⟨1, none⟩, ⟨2, none⟩], [(1, 100), (2, 100)],
         [⟨3, 1, "n@e.w", "h", none, none, none, 0⟩,
          ⟨4, 2, "x@y.z", "h2", some 0, none, none, 0⟩],
         [], [⟨60, 3, "auth-verify-U", false, 86401000⟩],
         [⟨51, some 2⟩], [], [],
         [⟨"auth.passwordBased.emailUpdated", none, some 3, some 60, none⟩],
         61⟩ 1 = some refetched ∧
      authPasswordBasedCheckUnique
        ⟨[⟨1, none⟩, ⟨2, none⟩], [(1, 100), (2, 100)],
         [⟨3, 1, "n@e.w", "h", none, none, none, 0⟩,
          ⟨4, 2, "x@y.z", "h2", some 0, none, none, 0⟩],
         [], [⟨60, 3, "auth-verify-U", false, 86401000⟩],
         [⟨51, some 2⟩], [], [],
         [⟨"auth.passwordBased.emailUpdated", none, some 3, some 60, none⟩],
         61⟩ refetched = .ok ()) :=
  c6_update_email
    ⟨[⟨1, none⟩, ⟨2, none⟩], [(1, 100), (2, 100)],
     [⟨3, 1, "a@b.c", "h", some 0, none, none, 0⟩,
      ⟨4, 2, "x@y.z", "h2", some 0, none, none, 0⟩],
     [], [], [⟨50, some 1⟩, ⟨51, some 2⟩], [], [], [], 60⟩
    1000 "U"
    ⟨1, none, some ⟨3, 1, "a@b.c", "h", some 0, none, none, 0⟩, none, [100]⟩
    ⟨3, 1, "a@b.c", "h", some 0, none, none, 0⟩ "n@e.w"
    ⟨[⟨1, none⟩, ⟨2, none⟩], [(1, 100), (2, 100)],
     [⟨3, 1, "n@e.w", "h", none, none, none, 0⟩,
      ⟨4, 2, "x@y.z", "h2", some 0, none, none, 0⟩],
     [], [⟨60, 3, "auth-verify-U", false, 86401000⟩],
     [⟨51, some 2⟩], [], [],
     [⟨"auth.passwordBased.emailUpdated", none, some 3, some 60, none⟩],
     61⟩
    rfl rfl

/-- One successful random-password registration: the cache output is the
incoming cache when present and the freshly computed placeholder hash on
first use, and the inserted login row stores exactly that cached hash, with
`verifiedAt` defaulting to the current time only when the body does not
supply one. -/
theorem authPasswordBasedRegister_random_spec (st : AuthState)
    (cache : Option String) (bcryptHash : String → Nat → String)
    (u1 u2 : String) (now : Int) (uid : Nat)
    (p1 : Option String) (v1 o1 : Option Int) (email : String)
    (st' : AuthState) (cache' : Option String) (user' : AuthUser)
    (hrun : authPasswordBasedRegister st cache bcryptHash u1 u2 now true
      (some uid) ⟨some email, p1, some true, v1, o1⟩ = .ok (st', cache', user')) :
    cache' = some (cache.getD (bcryptHash u1 6)) ∧
    st'.passwordLogins = st.passwordLogins ++
      [⟨st.nextId, uid, email, cache.getD (bcryptHash u1 6),
        some (v1.getD now), o1, none, now⟩] ∧
    st'.passwordLoginResets = st.passwordLoginResets ++
      [⟨st.nextId + 1, st.nextId, passwordResetToken ++ "-" ++ u2, true,
        now + oneUtcDayMs⟩] ∧
    st'.jobs = st.jobs ++ [userRegisteredJob st.nextId (st.nextId + 1)] := by
  cases cache <;> cases v1 <;>
  · simp only [authPasswordBasedRegister, ne_eq, eq_self_iff_true, not_true,
      and_false, if_false, if_true, true_and, Option.isNone_none,
      Option.isNone_some, Bool.false_eq_true, decide_True] at hrun
    split at hrun
    · exact absurd hrun (by simp)
    · split at hrun
      · exact absurd hrun (by simp)
      · rw [Except.ok.injEq, Prod.mk.injEq, Prod.mk.injEq] at hrun
        obtain ⟨h1, h2, h3⟩ := hrun
        subst h1
        subst h2
        exact ⟨rfl, rfl, rfl, rfl⟩

/-- Claim C10, counterexample — a random-password registration whose body
supplies `verifiedAt` stores that value, not the current time: the
`body.verifiedAt ?? (...new Date()...)` default only applies when the body
leaves it unset. -/
theorem c10_verified_at_counterexample :
    authPasswordBasedRegister
        ⟨[⟨1, none⟩], [(1, 100)], [], [], [], [], [], [], [], 2⟩
        none (fun s _ => "bcrypt-" ++ s) "U1" "U2" 10 true (some 1)
        ⟨some "a@b.c", none, some true, some 5, none⟩
      = .ok
        (⟨[⟨1, none⟩], [(1, 100)],
          [⟨2, 1, "a@b.c", "bcrypt-U1", some 5, none, none, 10⟩], [],
          [⟨3, 2, "auth-reset-U2", true, 86400010⟩], [], [], [],
          [⟨"auth.passwordBased.userRegistered", none, some 2, some 3, none⟩],
          4⟩,
         some "bcrypt-U1",
         ⟨1, none, some ⟨2, 1, "a@b.c", "bcrypt-U1", some 5, none, none, 10⟩,
          none, [100]⟩) ∧
    (some (5 : Int) ≠ some (10 : Int)) :=
  ⟨rfl, by decide⟩

/-- Claim C10 (amended) — within one process, any two successful register
calls with `randomPassword: true` store byte-identical password hashes: the
placeholder bcrypt hash (of a random uuid at cost 6) is computed once on
first use and kept in the module-level cache for every later random-password
registration; every such user gets `verifiedAt` set to the body's value when
supplied and the current time otherwise, and a reset token with
`shouldSetPassword: true`. -/
theorem c10_random_password_register
    (st1 st2 : AuthState) (cache : Option String)
    (bcryptHash : String → Nat → String) (u1 u2 u3 u4 : String)
    (now1 now2 : Int) (uid1 uid2 : Nat)
    (body1 body2 : AuthPasswordBasedRegisterBody) (email1 email2 : String)
    (st1' st2' : AuthState) (cache1 cache2 : Option String)
    (user1 user2 : AuthUser)
    (hr1 : body1.randomPassword = some true)
    (hr2 : body2.randomPassword = some true)
    (he1 : body1.email = some email1) (he2 : body2.email = some email2)
    (hrun1 : authPasswordBasedRegister st1 cache bcryptHash u1 u2 now1 true
      (some uid1) body1 = .ok (st1', cache1, user1))
    (hrun2 : authPasswordBasedRegister st2 cache1 bcryptHash u3 u4 now2 true
      (some uid2) body2 = .ok (st2', cache2, user2)) :
    ∃ h : String,
      cache1 = some h ∧ cache2 = some h ∧
      (cache = none → h = bcryptHash u1 6) ∧
      (∀ h0, cache = some h0 → h = h0) ∧
      st1'.passwordLogins = st1.passwordLogins ++
        [⟨st1.nextId, uid1, email1, h, some (body1.verifiedAt.getD now1),
          body1.otpEnabledAt, none, now1⟩] ∧
      st2'.passwordLogins = st2.passwordLogins ++
        [⟨st2.nextId, uid2, email2, h, some (body2.verifiedAt.getD now2),
          body2.otpEnabledAt, none, now2⟩] ∧
      st1'.passwordLoginResets = st1.passwordLoginResets ++
        [⟨st1.nextId + 1, st1.nextId, passwordResetToken ++ "-" ++ u2, true,
          now1 + oneUtcDayMs⟩] ∧
      st2'.passwordLoginResets = st2.passwordLoginResets ++
        [⟨st2.nextId + 1, st2.nextId, passwordResetToken ++ "-" ++ u4, true,
          now2 + oneUtcDayMs⟩] := by
  obtain ⟨e1, p1, r1, v1, o1⟩ := body1
  obtain rfl : e1 = some email1 := he1
  obtain rfl : r1 = some true := hr1
  obtain ⟨e2, p2, r2, v2, o2⟩ := body2
  obtain rfl : e2 = some email2 := he2
  obtain rfl : r2 = some true := hr2
  obtain ⟨hc1, hl1, hs1, hj1⟩ := authPasswordBasedRegister_random_spec st1
    cache bcryptHash u1 u2 now1 uid1 p1 v1 o1 email1 st1' cache1 user1 hrun1
  obtain ⟨hc2, hl2, hs2, hj2⟩ := authPasswordBasedRegister_random_spec st2
    cache1 bcryptHash u3 u4 now2 uid2 p2 v2 o2 email2 st2' cache2 user2 hrun2
  refine ⟨cache.getD (bcryptHash u1 6), hc1, ?_, ?_, ?_, hl1, ?_, hs1, hs2⟩
  · rw [hc2, hc1]
    rfl
  · intro hc
    rw [hc]
    rfl
  · intro h0 hc
    rw [hc]
    rfl
  · rw [hl2, hc1]
    rfl

/-- Claim C10, witness: two chained random-password registrations from an
empty cache — both store the same `bcrypt-U1` placeholder, with `verifiedAt`
defaulting to each call's current time. -/
theorem c10_random_password_register_witness :
    ∃ h : String,
      (some "bcrypt-U1" : Option String) = some h ∧
      (some "bcrypt-U1" : Option String) = some h ∧
      ((none : Option String) = none → h = (fun s _ => "bcrypt-" ++ s) "U1" 6) ∧
      (∀ h0, (none : Option String) = some h0 → h = h0) ∧
      (⟨[⟨1, none⟩], [(1, 100)],
        [⟨2, 1, "a@b.c", "bcrypt-U1", some 10, none, none, 10⟩], [],
        [⟨3, 2, "auth-reset-U2", true, 86400010⟩], [], [], [],
        [⟨"auth.passwordBased.userRegistered", none, some 2, some 3, none⟩],
        4⟩ : AuthState).passwordLogins = [] ++
        [⟨2, 1, "a@b.c", h,
          some ((⟨some "a@b.c", none, some true, none, none⟩ :
            AuthPasswordBasedRegisterBody).verifiedAt.getD 10),
          (⟨some "a@b.c", none, some true, none, none⟩ :
            AuthPasswordBasedRegisterBody).otpEnabledAt, none, 10⟩] ∧
      (⟨[⟨7, none⟩], [(7, 100)],
        [⟨5, 7, "b@b.c", "bcrypt-U1", some 20, none, none, 20⟩], [],
        [⟨6, 5, "auth-reset-U4", true, 86400020⟩], [], [], [],
        [⟨"auth.passwordBased.userRegistered", none, some 5, some 6, none⟩],
        7⟩ : AuthState).passwordLogins = [] ++
        [⟨5, 7, "b@b.c", h,
          some ((⟨some "b@b.c", none, some true, none, none⟩ :
            AuthPasswordBasedRegisterBody).verifiedAt.getD 20),
          (⟨some "b@b.c", none, some true, none, none⟩ :
            AuthPasswordBasedRegisterBody).otpEnabledAt, none, 20⟩] ∧
      (⟨[⟨1, none⟩], [(1, 100)],
        [⟨2, 1, "a@b.c", "bcrypt-U1", some 10, none, none, 10⟩], [],
        [⟨3, 2, "auth-reset-U2", true, 86400010⟩], [], [], [],
        [⟨"auth.passwordBased.userRegistered", none, some 2, some 3, none⟩],
        4⟩ : AuthState).passwordLoginResets = [] ++
        [⟨2 + 1, 2, passwordResetToken ++ "-" ++ "U2", true,
          10 + oneUtcDayMs⟩] ∧
      (⟨[⟨7, none⟩], [(7, 100)],
        [⟨5, 7, "b@b.c", "bcrypt-U1", some 20, none, none, 20⟩], [],
        [⟨6, 5, "auth-reset-U4", true, 86400020⟩], [], [], [],
        [⟨"auth.passwordBased.userRegistered", none, some 5, some 6, none⟩],
        7⟩ : AuthState).passwordLoginResets = [] ++
        [⟨5 + 1, 5, passwordResetToken ++ "-" ++ "U4", true,
          20 + oneUtcDayMs⟩] :=
  c10_random_password_register
    ⟨[⟨1, none⟩], [(1, 100)], [], [], [], [], [], [], [], 2⟩
    ⟨[⟨7, none⟩], [(7, 100)], [], [], [], [], [], [], [], 5⟩
    none (fun s _ => "bcrypt-" ++ s) "U1" "U2" "U3" "U4" 10 20 1 7
    ⟨some "a@b.c", none, some true, none, none⟩
    ⟨some "b@b.c", none, some true, none, none⟩
    "a@b.c" "b@b.c"
    ⟨[⟨1, none⟩], [(1, 100)],
     [⟨2, 1, "a@b.c", "bcrypt-U1", some 10, none, none, 10⟩], [],
     [⟨3, 2, "auth-reset-U2", true, 86400010⟩], [], [], [],
     [⟨"auth.passwordBased.userRegistered", none, some 2, some 3, none⟩], 4⟩
    ⟨[⟨7, none⟩], [(7, 100)],
     [⟨5, 7, "b@b.c", "bcrypt-U1", some 20, none, none, 20⟩], [],
     [⟨6, 5, "auth-reset-U4", true, 86400020⟩], [], [], [],
     [⟨"auth.passwordBased.userRegistered", none, some 5, some 6, none⟩], 7⟩
    (some "bcrypt-U1") (some "bcrypt-U1")
    ⟨1, none, some ⟨2, 1, "a@b.c", "bcrypt-U1", some 10, none, none, 10⟩,
     none, [100]⟩
    ⟨7, none, some ⟨5, 7, "b@b.c", "bcrypt-U1", some 20, none, none, 20⟩,
     none, [100]⟩
    rfl rfl rfl rfl rfl rfl

/-- Searching a token list by id commutes with mapping an id-preserving
row transformation. -/
theorem find_token_map (l : List StoreToken) (f : StoreToken → StoreToken)
    (hf : ∀ t, (f t).id = t.id) (tid : Nat) :
    (l.map f).find? (fun t => t.id = tid)
      = (l.find? (fun t => t.id = tid)).map f := by
  induction l with
  | nil => rfl
  | cons a l ih =>
    rw [List.map_cons]
    by_cases h : a.id = tid
    · rw [List.find?_cons_of_pos _ (by simp [hf, h]),
        List.find?_cons_of_pos _ (by simp [h])]
      rfl
    · rw [List.find?_cons_of_neg _ (by simp [hf, h]),
        List.find?_cons_of_neg _ (by simp [h]), ih]

/-- Claim C1 — one successful rotation of refresh token `R` marks `R` revoked
and issues a new access/refresh pair; presenting `R` again is unauthorized
(HTTP 401) and revokes the entire token chain of the session, so both tokens
of the previously issued pair are rejected afterwards. -/
theorem c1_refresh_replay_revokes_chain (st : SessionStoreState)
    (now1 now2 now3 accessMaxAge refreshMaxAge : Int)
    (R : StoreToken) (S : StoreSession)
    (hfind : st.tokens.find? (fun t => t.id = R.id) = some R)
    (hsess : st.sessions.find? (fun s => s.id = R.session) = some S)
    (hSrev : S.revokedAt = none)
    (hRrev : R.revokedAt = none)
    (hexp1 : ¬ R.expiresAt ≤ now1)
    (hexp2 : ¬ R.expiresAt ≤ now2)
    (hexp3 : ¬ now1 + refreshMaxAge ≤ now3)
    (hfresh : ∀ t ∈ st.tokens, t.id < st.nextId) :
    ∃ st1 st2 : SessionStoreState,
      sessionStoreRefreshTokens st now1 accessMaxAge refreshMaxAge (some R.id)
        = (st1, .ok (st.nextId + 1, st.nextId)) ∧
      sessionStoreRefreshTokens st1 now2 accessMaxAge refreshMaxAge (some R.id)
        = (st2,
          .error (.unauthorized "sessionStore.refreshTokens.revokedToken")) ∧
      (AuthError.unauthorized
        "sessionStore.refreshTokens.revokedToken").status = 401 ∧
      (∀ t ∈ st2.tokens, t.session = R.session → t.revokedAt.isSome) ∧
      sessionStoreGet st2 now3 (some (st.nextId + 1))
        = .error (.unauthorized "sessionStore.get.revokedToken") ∧
      (sessionStoreRefreshTokens st2 now3 accessMaxAge refreshMaxAge
          (some st.nextId)).2
        = .error (.unauthorized "sessionStore.refreshTokens.revokedToken") := by
  have hfR : ∀ t : StoreToken,
      ((if t.id = R.id then { t with revokedAt := some now1 } else t) :
        StoreToken).id = t.id := by
    intro t
    by_cases h : t.id = R.id
    · rw [if_pos h]
    · rw [if_neg h]
  have hgid : ∀ t : StoreToken,
      ((if t.session = R.session ∧ t.revokedAt = none
        then { t with revokedAt := some now2 } else t) : StoreToken).id
        = t.id := by
    intro t
    by_cases h : t.session = R.session ∧ t.revokedAt = none
    · rw [if_pos h]
    · rw [if_neg h]
  have hrun1 : sessionStoreRefreshTokens st now1 accessMaxAge refreshMaxAge
      (some R.id)
      = (⟨st.sessions,
          (st.tokens.map (fun t : StoreToken =>
            if t.id = R.id then { t with revokedAt := some now1 } else t)) ++
            [⟨st.nextId, R.session, now1 + refreshMaxAge, none, none⟩,
             ⟨st.nextId + 1, R.session, now1 + accessMaxAge, some st.nextId,
              none⟩],
          st.nextId + 2⟩,
        .ok (st.nextId + 1, st.nextId)) := by
    simp only [sessionStoreRefreshTokens, hfind, hsess, hSrev, hRrev,
      Option.isSome_none, Bool.false_eq_true, if_false]
    rw [if_neg hexp1]
  have hfind1 : ((st.tokens.map (fun t : StoreToken =>
      if t.id = R.id then { t with revokedAt := some now1 } else t)) ++
        ([⟨st.nextId, R.session, now1 + refreshMaxAge, none, none⟩,
          ⟨st.nextId + 1, R.session, now1 + accessMaxAge, some st.nextId,
           none⟩] : List StoreToken)).find? (fun t => t.id = R.id)
      = some { R with revokedAt := some now1 } := by
    rw [List.find?_append, find_token_map st.tokens _ hfR R.id, hfind]
    simp only [Option.map_some', if_true]
    rfl
  have hrun2 : sessionStoreRefreshTokens
      ⟨st.sessions,
        (st.tokens.map (fun t : StoreToken =>
          if t.id = R.id then { t with revokedAt := some now1 } else t)) ++
          [⟨st.nextId, R.session, now1 + refreshMaxAge, none, none⟩,
           ⟨st.nextId + 1, R.session, now1 + accessMaxAge, some st.nextId,
            none⟩],
        st.nextId + 2⟩ now2 accessMaxAge refreshMaxAge (some R.id)
      = (revokeSessionChain
          ⟨st.sessions,
            (st.tokens.map (fun t =>
              if t.id = R.id then { t with revokedAt := some now1 } else t)) ++
              [⟨st.nextId, R.session, now1 + refreshMaxAge, none, none⟩,
               ⟨st.nextId + 1, R.session, now1 + accessMaxAge, some st.nextId,
                none⟩],
            st.nextId + 2⟩ R.session now2,
        .error (.unauthorized "sessionStore.refreshTokens.revokedToken")) := by
    simp only [sessionStoreRefreshTokens, hfind1, hsess, hSrev,
      Option.isSome_none, Option.isSome_some, Bool.false_eq_true, if_false,
      if_true]
    rw [if_neg hexp2]
  refine ⟨_, _, hrun1, hrun2, rfl, ?_, ?_, ?_⟩
  · intro t ht hts
    simp only [revokeSessionChain] at ht
    obtain ⟨t0, ht0, rfl⟩ := List.mem_map.mp ht
    by_cases hc : t0.session = R.session ∧ t0.revokedAt = none
    · rw [if_pos hc]
      rfl
    · rw [if_neg hc] at hts ⊢
      have hne : t0.revokedAt ≠ none := fun hB => hc ⟨hts, hB⟩
      exact Option.isSome_iff_ne_none.mpr hne
  · have hpre : ((st.tokens.map (fun t : StoreToken =>
        if t.id = R.id then { t with revokedAt := some now1 } else t)).map
          (fun t : StoreToken => if t.session = R.session ∧ t.revokedAt = none
            then { t with revokedAt := some now2 } else t)).find?
        (fun t => t.id = st.nextId + 1) = none := by
      rw [find_token_map _ _ hgid, find_token_map _ _ hfR]
      rw [List.find?_eq_none.mpr]
      · rfl
      · intro t ht
        have := hfresh t ht
        simp only [decide_eq_true_eq]
        omega
    have hfind2 : (revokeSessionChain
        ⟨st.sessions,
          (st.tokens.map (fun t : StoreToken =>
            if t.id = R.id then { t with revokedAt := some now1 } else t)) ++
            [⟨st.nextId, R.session, now1 + refreshMaxAge, none, none⟩,
             ⟨st.nextId + 1, R.session, now1 + accessMaxAge, some st.nextId,
              none⟩],
          st.nextId + 2⟩ R.session now2).tokens.find?
        (fun t => t.id = st.nextId + 1)
        = some ⟨st.nextId + 1, R.session, now1 + accessMaxAge, some st.nextId,
            some now2⟩ := by
      simp only [revokeSessionChain, List.map_append, List.find?_append, hpre]
      rw [List.map_cons, List.map_cons, List.map_nil]
      rw [if_pos ⟨rfl, rfl⟩, if_pos ⟨rfl, rfl⟩]
      rw [List.find?_cons_of_neg _ (by simp),
        List.find?_cons_of_pos _ (by simp)]
      rfl
    simp only [sessionStoreGet, hfind2, Option.isSome_some, if_true]
  · have hpre : ((st.tokens.map (fun t : StoreToken =>
        if t.id = R.id then { t with revokedAt := some now1 } else t)).map
          (fun t : StoreToken => if t.session = R.session ∧ t.revokedAt = none
            then { t with revokedAt := some now2 } else t)).find?
        (fun t => t.id = st.nextId) = none := by
      rw [find_token_map _ _ hgid, find_token_map _ _ hfR]
      rw [List.find?_eq_none.mpr]
      · rfl
      · intro t ht
        have := hfresh t ht
        simp only [decide_eq_true_eq]
        omega
    have hfind3 : (revokeSessionChain
        ⟨st.sessions,
          (st.tokens.map (fun t : StoreToken =>
            if t.id = R.id then { t with revokedAt := some now1 } else t)) ++
            [⟨st.nextId, R.session, now1 + refreshMaxAge, none, none⟩,
             ⟨st.nextId + 1, R.session, now1 + accessMaxAge, some st.nextId,
              none⟩],
          st.nextId + 2⟩ R.session now2).tokens.find?
        (fun t => t.id = st.nextId)
        = some ⟨st.nextId, R.session, now1 + refreshMaxAge, none,
            some now2⟩ := by
      simp only [revokeSessionChain, List.map_append, List.find?_append, hpre]
      rw [List.map_cons, List.map_cons, List.map_nil]
      rw [if_pos ⟨rfl, rfl⟩, if_pos ⟨rfl, rfl⟩]
      rw [List.find?_cons_of_pos _ (by simp)]
      rfl
    simp only [sessionStoreRefreshTokens, hfind3]
    rw [if_neg hexp3]
    simp only [revokeSessionChain, hsess, hSrev, Option.isSome_none,
      Option.isSome_some, Bool.false_eq_true, if_false, if_true]

/-- Claim C1, witness: a concrete session with one refresh token rotated,
replayed, and the issued pair rejected. -/
theorem c1_refresh_replay_revokes_chain_witness :
    ∃ st1 st2 : SessionStoreState,
      sessionStoreRefreshTokens ⟨[⟨1, none⟩], [⟨10, 1, 100, none, none⟩], 20⟩
          0 50 1000 (some 10)
        = (st1, .ok (20 + 1, 20)) ∧
      sessionStoreRefreshTokens st1 1 50 1000 (some 10)
        = (st2,
          .error (.unauthorized "sessionStore.refreshTokens.revokedToken")) ∧
      (AuthError.unauthorized
        "sessionStore.refreshTokens.revokedToken").status = 401 ∧
      (∀ t ∈ st2.tokens, t.session = 1 → t.revokedAt.isSome) ∧
      sessionStoreGet st2 2 (some (20 + 1))
        = .error (.unauthorized "sessionStore.get.revokedToken") ∧
      (sessionStoreRefreshTokens st2 2 50 1000 (some 20)).2
        = .error (.unauthorized "sessionStore.refreshTokens.revokedToken") :=
  c1_refresh_replay_revokes_chain
    ⟨[⟨1, none⟩], [⟨10, 1, 100, none, none⟩], 20⟩ 0 1 2 50 1000
    ⟨10, 1, 100, none, none⟩ ⟨1, none⟩ rfl rfl rfl rfl
    (by decide) (by decide) (by decide) (by decide)

end Backend
